import Mathlib

/-!
# NodeEditorImpl.h : a shallow embedding

Embedding of the scene objects (`Object`, `Pin`, `Node`, `Link`), the `Control`
value and the inline members of `EditorContext` that are defined in
`Editor/Editor/NodeEditor/NodeEditorImpl.h`.

Conventions

* `F` is the type of `float` values.  Nothing here computes with floats; every
  float operation the header calls lives in a header that is not part of the
  sources and is a field of `Lib`.
* A pointer is `Ptr = Option Nat`: `none` is `nullptr`, `some a` is the
  address `a`.  `Memory F` gives the object every address designates.
* `int` is `Int`; where arithmetic is done on it the 32-bit wrap is explicit
  (`wrap32`).
-/

namespace NodeEditor

/-! ## Plain data from the included headers -/

/-- A pointer: `none` is `nullptr`. -/
abbrev Ptr := Option Nat

/-- The type `ImVec2` of imgui.h: two floats. -/
structure ImVec2 (F : Type) where
  x : F
  y : F
deriving DecidableEq, Repr

/-- The type `ax::point` (two `int`s); the header reads `p.x`, `p.y` and builds
`ax::point(a, b)`. -/
structure point where
  x : Int
  y : Int
deriving DecidableEq, Repr

/-- The type `ax::pointf`. -/
structure pointf (F : Type) where
  x : F
  y : F
deriving DecidableEq, Repr

/-- The type `ax::rect`: an integer rectangle, location and size. -/
structure rect where
  x : Int
  y : Int
  w : Int
  h : Int
deriving DecidableEq, Repr

/-- The type `ax::rectf`: a float rectangle, location and size. -/
structure rectf (F : Type) where
  x : F
  y : F
  w : F
  h : F
deriving DecidableEq, Repr

/-- Modelled from the spec: `PinKind` is declared in NodeEditor.h, which is not
part of the sources; the spec names its two values (Input/Output). -/
inductive PinKind where
  | Input
  | Output
deriving DecidableEq, Repr

/-- The enumeration `NodeType`. -/
inductive NodeType where
  | Node
  | Group
deriving DecidableEq, Repr

/-! ## Scene objects -/

/-- The data members of `struct Object`. -/
structure ObjectBase where
  Editor : Ptr
  ID : Int
  IsLive : Bool
deriving DecidableEq, Repr

/-- The constructor `Object::Object(editor, id)`. -/
def ObjectBase.new (editor : Ptr) (id : Int) : ObjectBase :=
  { Editor := editor, ID := id, IsLive := true }

/-- The base implementation `Object::Reset() { IsLive = false; }`. -/
def ObjectBase.Reset (self : ObjectBase) : ObjectBase :=
  { self with IsLive := false }

/-- The data of `struct Pin`. -/
structure Pin (F : Type) extends ObjectBase where
  Kind : PinKind
  Node : Ptr
  Bounds : rect
  Pivot : rectf F
  PreviousPin : Ptr
  Color : Nat
  BorderColor : Nat
  BorderWidth : F
  Rounding : F
  Corners : Int
  Dir : ImVec2 F
  Strength : F
  Radius : F
  ArrowSize : F
  ArrowWidth : F
  HasConnection : Bool
  HadConnection : Bool
deriving DecidableEq, Repr

/-- The data of `struct Node`. -/
structure Node (F : Type) extends ObjectBase where
  /-- the member `Type` (a reserved word here) -/
  Type_ : NodeType
  Bounds : rect
  Channel : Int
  LastPin : Ptr
  DragStart : point
  Color : Nat
  BorderColor : Nat
  BorderWidth : F
  Rounding : F
  GroupColor : Nat
  GroupBorderColor : Nat
  GroupBorderWidth : F
  GroupRounding : F
  GroupBounds : rect
  RestoreState : Bool
  CenterOnScreen : Bool
deriving DecidableEq, Repr

/-- The data of `struct Link`. -/
structure Link (F : Type) extends ObjectBase where
  StartPin : Ptr
  EndPin : Ptr
  Color : Nat
  Thickness : F
  Start : ImVec2 F
  End : ImVec2 F
deriving DecidableEq, Repr

/-- The three `final` classes derived from `Object`; `Object` itself is abstract
(`Draw` and `GetBounds` are pure virtual), so every object is one of them. -/
inductive Object (F : Type) where
  | node (n : Node F)
  | pin (p : Pin F)
  | link (l : Link F)
deriving DecidableEq, Repr

/-- The dynamic type of an object. -/
inductive ObjectKind where
  | Node
  | Pin
  | Link
deriving DecidableEq, Repr

/-- What every address designates. -/
abbrev Memory (F : Type) := Nat → Object F

/-- Everything the header calls but does not define: the rectangle operations of
Common/Math.h, the conversions of Common/ImGuiInterop.h, `ImGui::IsRectVisible`,
the comparison of a float with zero, and the members of `Link` that are only
declared in the header. -/
structure Lib (F : Type) where
  /-- conversion `static_cast<rectf>(r)` of an integer rectangle `r` -/
  to_rectf : rect → rectf F
  /-- the default-constructed `ax::rectf` -/
  rectf_default : rectf F
  top_left : rectf F → pointf F
  bottom_right : rectf F → pointf F
  is_empty : rectf F → Bool
  /-- call `r.expand(e)`: the rectangle that `r` becomes -/
  expand : rectf F → F → rectf F
  /-- call `r.contains(p)` for a point `p` -/
  contains_point : rectf F → pointf F → Bool
  /-- call `r.contains(s)` for a rectangle `s` -/
  contains_rect : rectf F → rectf F → Bool
  intersects : rectf F → rectf F → Bool
  make_union : rectf F → rectf F → rectf F
  to_imvec : pointf F → ImVec2 F
  to_pointf : ImVec2 F → pointf F
  IsRectVisible : ImVec2 F → ImVec2 F → Bool
  /-- the test `e > 0` on a float -/
  gt_zero : F → Bool
  Link_GetBounds : Link F → rectf F
  Link_TestHit : Link F → ImVec2 F → F → Bool
  Link_TestHitRect : Link F → rectf F → Bool → Bool
  /-- the float an integer literal denotes (`0`, `1.0f`) -/
  of_int : Int → F
  /-- the default-constructed `ax::rect` -/
  rect_default : rect
  /-- the default-constructed `ax::point` -/
  point_default : point
  /-- the default-constructed `ImVec2` -/
  ImVec2_default : ImVec2 F
  IM_COL32_WHITE : Nat
  IM_COL32_BLACK : Nat

variable {F : Type}

/-- The `Object` subobject of an object. -/
def Object.base : Object F → ObjectBase
  | .node n => n.toObjectBase
  | .pin p => p.toObjectBase
  | .link l => l.toObjectBase

/-- The member `ID`. -/
def Object.ID (self : Object F) : Int := self.base.ID

/-- The member `IsLive`. -/
def Object.IsLive (self : Object F) : Bool := self.base.IsLive

/-- The dynamic type. -/
def Object.kind : Object F → ObjectKind
  | .node _ => .Node
  | .pin _ => .Pin
  | .link _ => .Link

/-- The override `Pin::GetBounds`. -/
def Pin.GetBounds (lib : Lib F) (self : Pin F) : rectf F :=
  lib.to_rectf self.Bounds

/-- The override `Node::GetBounds`. -/
def Node.GetBounds (lib : Lib F) (self : Node F) : rectf F :=
  lib.to_rectf self.Bounds

/-- The virtual `GetBounds()`. -/
def Object.GetBounds (lib : Lib F) : Object F → rectf F
  | .node n => n.GetBounds lib
  | .pin p => p.GetBounds lib
  | .link l => lib.Link_GetBounds l

/-- The override `Pin::Reset`. -/
def Pin.Reset (self : Pin F) : Pin F :=
  let self := { self with HadConnection := self.HasConnection && self.IsLive }
  let self := { self with HasConnection := false }
  { self with toObjectBase := self.toObjectBase.Reset }

/-- The virtual `Reset()`: `Pin` overrides it, `Node` and `Link` inherit
`Object::Reset`. -/
def Object.Reset : Object F → Object F
  | .node n => .node { n with toObjectBase := n.toObjectBase.Reset }
  | .pin p => .pin p.Reset
  | .link l => .link { l with toObjectBase := l.toObjectBase.Reset }

/-- The non-virtual `Object::IsVisible`. -/
def Object.IsVisible (lib : Lib F) (self : Object F) : Bool :=
  if !self.IsLive then false
  else
    let bounds := self.GetBounds lib
    lib.IsRectVisible (lib.to_imvec (lib.top_left bounds)) (lib.to_imvec (lib.bottom_right bounds))

/-- The base implementation `Object::TestHit(const ImVec2&, float)`. -/
def Object.baseTestHit (lib : Lib F) (self : Object F) (point : ImVec2 F)
    (extraThickness : F) : Bool :=
  if !self.IsLive then false
  else
    let bounds := self.GetBounds lib
    let bounds := if lib.gt_zero extraThickness then lib.expand bounds extraThickness else bounds
    lib.contains_point bounds (lib.to_pointf point)

/-- The base implementation `Object::TestHit(const ax::rectf&, bool)`. -/
def Object.baseTestHitRect (lib : Lib F) (self : Object F) (r : rectf F)
    (allowIntersect : Bool) : Bool :=
  if !self.IsLive then false
  else
    let bounds := self.GetBounds lib
    !lib.is_empty bounds && (if allowIntersect then lib.intersects bounds r else lib.contains_rect r bounds)

/-- The virtual `TestHit(point, extraThickness)`: only `Link` overrides it. -/
def Object.TestHit (lib : Lib F) (self : Object F) (point : ImVec2 F) (extraThickness : F) : Bool :=
  match self with
  | .link l => lib.Link_TestHit l point extraThickness
  | _ => self.baseTestHit lib point extraThickness

/-- The virtual `TestHit(rect, allowIntersect)`: only `Link` overrides it. -/
def Object.TestHitRect (lib : Lib F) (self : Object F) (r : rectf F) (allowIntersect : Bool) : Bool :=
  match self with
  | .link l => lib.Link_TestHitRect l r allowIntersect
  | _ => self.baseTestHitRect lib r allowIntersect

/-- The template `EditorContext::GetBounds(const std::vector<T*>&)`; the loop
dereferences every element, so the elements are addresses. -/
def EditorContext.GetBounds (lib : Lib F) (mem : Memory F) (objects : List Nat) : rectf F :=
  objects.foldl
    (fun bounds object =>
      if (mem object).IsLive then lib.make_union bounds ((mem object).GetBounds lib) else bounds)
    lib.rectf_default

/-- The template `ObjectWrapper<T>`: an ID and the owning pointer. -/
structure ObjectWrapper where
  ID : Int
  Object : Nat
deriving DecidableEq, Repr

/-- The template `EditorContext::GetBounds(const std::vector<ObjectWrapper<T>>&)`. -/
def EditorContext.GetBoundsWrapped (lib : Lib F) (mem : Memory F)
    (objects : List ObjectWrapper) : rectf F :=
  objects.foldl
    (fun bounds object =>
      if (mem object.Object).IsLive then
        lib.make_union bounds ((mem object.Object).GetBounds lib)
      else bounds)
    lib.rectf_default

/-! ## Constructors -/

/-- The constructor `Pin::Pin(editor, id, kind)`; `Pivot` has no initialiser and
is default-constructed. -/
def Pin.new (lib : Lib F) (editor : Ptr) (id : Int) (kind : PinKind) : Pin F :=
  { toObjectBase := ObjectBase.new editor id,
    Kind := kind, Node := none, Bounds := lib.rect_default, Pivot := lib.rectf_default,
    PreviousPin := none, Color := lib.IM_COL32_WHITE, BorderColor := lib.IM_COL32_BLACK,
    BorderWidth := lib.of_int 0, Rounding := lib.of_int 0, Corners := 0,
    Dir := ⟨lib.of_int 0, lib.of_int 0⟩, Strength := lib.of_int 0, Radius := lib.of_int 0,
    ArrowSize := lib.of_int 0, ArrowWidth := lib.of_int 0,
    HasConnection := false, HadConnection := false }

/-- The four members that `Node::Node` leaves without an initialiser: a new node
holds whatever values the storage had. -/
structure NodeIndeterminate (F : Type) where
  GroupColor : Nat
  GroupBorderColor : Nat
  GroupBorderWidth : F
  GroupRounding : F

/-- The constructor `Node::Node(editor, id)`; `indeterminate` gives the members
it does not initialise. -/
def Node.new (lib : Lib F) (indeterminate : NodeIndeterminate F) (editor : Ptr) (id : Int) :
    Node F :=
  { toObjectBase := ObjectBase.new editor id,
    Type_ := NodeType.Node, Bounds := lib.rect_default, Channel := 0, LastPin := none,
    DragStart := lib.point_default, Color := lib.IM_COL32_WHITE,
    BorderColor := lib.IM_COL32_BLACK, BorderWidth := lib.of_int 0, Rounding := lib.of_int 0,
    GroupColor := indeterminate.GroupColor, GroupBorderColor := indeterminate.GroupBorderColor,
    GroupBorderWidth := indeterminate.GroupBorderWidth,
    GroupRounding := indeterminate.GroupRounding,
    GroupBounds := lib.rect_default, RestoreState := false, CenterOnScreen := false }

/-- The constructor `Link::Link(editor, id)`; `Start` and `End` have no
initialiser and are default-constructed. -/
def Link.new (lib : Lib F) (editor : Ptr) (id : Int) : Link F :=
  { toObjectBase := ObjectBase.new editor id,
    StartPin := none, EndPin := none, Color := lib.IM_COL32_WHITE, Thickness := lib.of_int 1,
    Start := lib.ImVec2_default, End := lib.ImVec2_default }

/-! ## Scene registry -/

/-- The loop of a binary search for the first entry whose ID is not less than
`id` (the shape of `std::lower_bound`): `first` is the start of the range still
searched, `count` its length; `fuel` bounds the number of iterations. -/
def lowerBoundLoop (table : List ObjectWrapper) (id : Int) : Nat → Nat → Nat → Nat
  | 0, first, _ => first
  | fuel + 1, first, count =>
    if count = 0 then first
    else
      let step := count / 2
      let it := first + step
      match table[it]? with
      | some entry =>
        if entry.ID < id then lowerBoundLoop table id fuel (it + 1) (count - (step + 1))
        else lowerBoundLoop table id fuel first step
      | none => first

/-- Modelled from the spec: the lookup functions of the registry are defined in
NodeEditor.cpp, which is not part of the sources; the spec (4.2) says the table
is searched by "binary-search by ID".  The result is the index of the first entry
whose ID is not less than `id`, or the length of the table. -/
def lower_bound (table : List ObjectWrapper) (id : Int) : Nat :=
  lowerBoundLoop table id table.length 0 table.length

/-- Modelled from the spec: `struct EditorContext` is only declared in the header
(its member functions are in NodeEditor.cpp).  This is the part of its state the
registry operations on nodes use: the table `Nodes` of (ID, owning pointer)
pairs "kept sorted by ID", the objects in memory, the address of the context
itself and the address the next `new` returns. -/
structure Registry (F : Type) where
  Nodes : List ObjectWrapper
  mem : Memory F
  this : Ptr
  nextAddress : Nat

/-- The assignment `object->IsLive = true`. -/
def Object.setLive : Object F → Object F
  | .node n => .node { n with IsLive := true }
  | .pin p => .pin { p with IsLive := true }
  | .link l => .link { l with IsLive := true }

/-- Modelled from the spec: `EditorContext::FindNode` is defined in
NodeEditor.cpp, not part of the sources.  Spec 4.2: "lookup without creation or
revival; returns null if absent regardless of liveness". -/
def Registry.FindNode (s : Registry F) (id : Int) : Ptr :=
  match s.Nodes[lower_bound s.Nodes id]? with
  | some entry => if entry.ID = id then some entry.Object else none
  | none => none

/-- Modelled from the spec: `EditorContext::CreateNode` is defined in
NodeEditor.cpp, not part of the sources.  Spec 4.2: "binary-search by ID; if
found, return existing and mark live; else insert new object at the sorted
position ... and return it".  The result is the new state and the returned
`Node*`. -/
def Registry.CreateNode (lib : Lib F) (indeterminate : NodeIndeterminate F) (s : Registry F)
    (id : Int) : Registry F × Nat :=
  let index := lower_bound s.Nodes id
  let create : Registry F × Nat :=
    ({ s with
        Nodes := s.Nodes.take index ++ ⟨id, s.nextAddress⟩ :: s.Nodes.drop index,
        mem := Function.update s.mem s.nextAddress
          (Object.node (Node.new lib indeterminate s.this id)),
        nextAddress := s.nextAddress + 1 },
      s.nextAddress)
  match s.Nodes[index]? with
  | some entry =>
    if entry.ID = id then
      ({ s with mem := Function.update s.mem entry.Object (s.mem entry.Object).setLive },
        entry.Object)
    else create
  | none => create

/-- The registry invariant of spec 3 and 4.2: the table is sorted by ID, with
no ID twice. -/
def Registry.sorted (s : Registry F) : Prop :=
  s.Nodes.Pairwise (fun a b => a.ID < b.ID)

instance (s : Registry F) : Decidable s.sorted := by
  unfold Registry.sorted; infer_instance

/-! ## A concrete instance of the missing headers -/

/-- Modelled from the spec: Common/Math.h, Common/ImGuiInterop.h, imgui.h and the
out-of-line members of `Link` are not part of the sources.  This instance is the
usual axis-aligned rectangle (location and size, empty when a side is not
positive) on integer coordinates, which floats hold exactly; the spec only names
the operations (bounds contain a point, bounds intersect, full containment,
union of bounds).  It serves to evaluate the embedding on concrete inputs. -/
def intLib : Lib Int where
  to_rectf r := ⟨r.x, r.y, r.w, r.h⟩
  rectf_default := ⟨0, 0, 0, 0⟩
  top_left r := ⟨r.x, r.y⟩
  bottom_right r := ⟨r.x + r.w, r.y + r.h⟩
  is_empty r := decide (r.w ≤ 0 ∨ r.h ≤ 0)
  expand r e := ⟨r.x - e, r.y - e, r.w + 2 * e, r.h + 2 * e⟩
  contains_point r p :=
    decide (r.x ≤ p.x ∧ r.y ≤ p.y ∧ p.x < r.x + r.w ∧ p.y < r.y + r.h)
  contains_rect r s :=
    decide (r.x ≤ s.x ∧ r.y ≤ s.y ∧ s.x + s.w ≤ r.x + r.w ∧ s.y + s.h ≤ r.y + r.h)
  intersects r s :=
    decide (r.x < s.x + s.w ∧ s.x < r.x + r.w ∧ r.y < s.y + s.h ∧ s.y < r.y + r.h)
  make_union a b :=
    if a.w ≤ 0 ∨ a.h ≤ 0 then b
    else if b.w ≤ 0 ∨ b.h ≤ 0 then a
    else
      ⟨min a.x b.x, min a.y b.y,
        max (a.x + a.w) (b.x + b.w) - min a.x b.x, max (a.y + a.h) (b.y + b.h) - min a.y b.y⟩
  to_imvec p := ⟨p.x, p.y⟩
  to_pointf v := ⟨v.x, v.y⟩
  IsRectVisible a b := decide (a.x < 1000 ∧ 0 < b.x ∧ a.y < 1000 ∧ 0 < b.y)
  gt_zero e := decide (0 < e)
  Link_GetBounds l :=
    ⟨min l.Start.x l.End.x, min l.Start.y l.End.y,
      max l.Start.x l.End.x - min l.Start.x l.End.x, max l.Start.y l.End.y - min l.Start.y l.End.y⟩
  Link_TestHit l _ _ := l.IsLive
  Link_TestHitRect l _ _ := l.IsLive
  of_int z := z
  rect_default := ⟨0, 0, 0, 0⟩
  point_default := ⟨0, 0⟩
  ImVec2_default := ⟨0, 0⟩
  IM_COL32_WHITE := 0xFFFFFFFF
  IM_COL32_BLACK := 0xFF000000

/-- A pin with the given id, liveness, connection flag and bounds; every other
member has the value the constructor `Pin::Pin` gives it. -/
def examplePin (id : Int) (live hasConnection : Bool) (bounds : rect) : Pin Int :=
  { Editor := none, ID := id, IsLive := live, Kind := PinKind.Input, Node := none,
    Bounds := bounds, Pivot := ⟨0, 0, 0, 0⟩, PreviousPin := none,
    Color := 0xFFFFFFFF, BorderColor := 0xFF000000, BorderWidth := 0, Rounding := 0,
    Corners := 0, Dir := ⟨0, 0⟩, Strength := 0, Radius := 0, ArrowSize := 0, ArrowWidth := 0,
    HasConnection := hasConnection, HadConnection := false }

/-- A node with the given id, liveness and bounds; every other member has the
value the constructor `Node::Node` gives it (zero where it gives none). -/
def exampleNode (id : Int) (live : Bool) (bounds : rect) : Node Int :=
  { Editor := none, ID := id, IsLive := live, Type_ := NodeType.Node, Bounds := bounds,
    Channel := 0, LastPin := none, DragStart := ⟨0, 0⟩,
    Color := 0xFFFFFFFF, BorderColor := 0xFF000000, BorderWidth := 0, Rounding := 0,
    GroupColor := 0, GroupBorderColor := 0, GroupBorderWidth := 0, GroupRounding := 0,
    GroupBounds := ⟨0, 0, 0, 0⟩, RestoreState := false, CenterOnScreen := false }

/-- A link with the given id, liveness and end pins. -/
def exampleLink (id : Int) (live : Bool) (startPin endPin : Ptr) : Link Int :=
  { Editor := none, ID := id, IsLive := live, StartPin := startPin, EndPin := endPin,
    Color := 0xFFFFFFFF, Thickness := 1, Start := ⟨0, 0⟩, End := ⟨0, 0⟩ }

/-! ## Grid alignment -/

/-- The value a result of `int` arithmetic wraps to (32 bits, two's complement). -/
def wrap32 (z : Int) : Int := (z + 2147483648) % 4294967296 - 2147483648

/-- The range of `int`. -/
def isInt32 (z : Int) : Prop := -2147483648 ≤ z ∧ z ≤ 2147483647

instance (z : Int) : Decidable (isInt32 z) := by
  unfold isInt32; infer_instance

/-- The difference `a - b` of two `ax::point`s, coordinate by coordinate, in
`int` arithmetic. -/
def point.sub (a b : point) : point :=
  ⟨wrap32 (a.x - b.x), wrap32 (a.y - b.y)⟩

/-- The inline `EditorContext::AlignPointToGrid`; `KeyAlt` is
`ImGui::GetIO().KeyAlt`, and `%` on `int` truncates toward zero (`Int.tmod`). -/
def EditorContext.AlignPointToGrid (KeyAlt : Bool) (p : point) : point :=
  if !KeyAlt then
    point.sub p
      ⟨wrap32 (Int.tmod (wrap32 (p.x + 0)) 16 - 0), wrap32 (Int.tmod (wrap32 (p.y + 0)) 16 - 0)⟩
  else
    p

/-! ## Control -/

/-- The virtual `AsNode()` called on the object at address `this`: `Node`
overrides it to return `this`, the others inherit `nullptr`. -/
def Object.AsNode (mem : Memory F) (this : Nat) : Ptr :=
  match mem this with
  | .node _ => some this
  | _ => none

/-- The virtual `AsPin()` called on the object at address `this`. -/
def Object.AsPin (mem : Memory F) (this : Nat) : Ptr :=
  match mem this with
  | .pin _ => some this
  | _ => none

/-- The virtual `AsLink()` called on the object at address `this`. -/
def Object.AsLink (mem : Memory F) (this : Nat) : Ptr :=
  match mem this with
  | .link _ => some this
  | _ => none

/-- The member read `pin->Node` through a `Pin*`. -/
def Memory.pinNode (mem : Memory F) (pin : Nat) : Ptr :=
  match mem pin with
  | .pin p => p.Node
  | _ => none

/-- The data of `struct Control`. -/
structure Control where
  HotObject : Ptr
  ActiveObject : Ptr
  ClickedObject : Ptr
  DoubleClickedObject : Ptr
  HotNode : Ptr
  ActiveNode : Ptr
  ClickedNode : Ptr
  DoubleClickedNode : Ptr
  HotPin : Ptr
  ActivePin : Ptr
  ClickedPin : Ptr
  DoubleClickedPin : Ptr
  HotLink : Ptr
  ActiveLink : Ptr
  ClickedLink : Ptr
  DoubleClickedLink : Ptr
  BackgroundHot : Bool
  BackgroundActive : Bool
  BackgroundClicked : Bool
  BackgroundDoubleClicked : Bool
deriving DecidableEq, Repr

/-- The constructor `Control::Control`: the member initialisers, then the four
`if` blocks of the body in order. -/
def Control.new (mem : Memory F)
    (hotObject activeObject clickedObject doubleClickedObject : Ptr)
    (backgroundHot backgroundActive backgroundClicked backgroundDoubleClicked : Bool) : Control :=
  let c : Control :=
    { HotObject := hotObject, ActiveObject := activeObject, ClickedObject := clickedObject,
      DoubleClickedObject := doubleClickedObject,
      HotNode := none, ActiveNode := none, ClickedNode := none, DoubleClickedNode := none,
      HotPin := none, ActivePin := none, ClickedPin := none, DoubleClickedPin := none,
      HotLink := none, ActiveLink := none, ClickedLink := none, DoubleClickedLink := none,
      BackgroundHot := backgroundHot, BackgroundActive := backgroundActive,
      BackgroundClicked := backgroundClicked,
      BackgroundDoubleClicked := backgroundDoubleClicked }
  let c :=
    match hotObject with
    | some hot =>
      let c := { c with HotNode := Object.AsNode mem hot }
      let c := { c with HotPin := Object.AsPin mem hot }
      let c := { c with HotLink := Object.AsLink mem hot }
      match c.HotPin with
      | some hotPin => { c with HotNode := Memory.pinNode mem hotPin }
      | none => c
    | none => c
  let c :=
    match activeObject with
    | some active =>
      let c := { c with ActiveNode := Object.AsNode mem active }
      let c := { c with ActivePin := Object.AsPin mem active }
      { c with ActiveLink := Object.AsLink mem active }
    | none => c
  let c :=
    match clickedObject with
    | some clicked =>
      let c := { c with ClickedNode := Object.AsNode mem clicked }
      let c := { c with ClickedPin := Object.AsPin mem clicked }
      { c with ClickedLink := Object.AsLink mem clicked }
    | none => c
  match doubleClickedObject with
  | some doubleClicked =>
    let c := { c with DoubleClickedNode := Object.AsNode mem doubleClicked }
    let c := { c with DoubleClickedPin := Object.AsPin mem doubleClicked }
    { c with DoubleClickedLink := Object.AsLink mem doubleClicked }
  | none => c

/-- What C10 says of one role: with no object the three typed pointers are
null; with an object exactly the typed pointer of the object's kind is set, to
the object itself, and the other two are null. -/
def typedPointersMatch (mem : Memory F) (object asNode asPin asLink : Ptr) : Prop :=
  match object with
  | none => asNode = none ∧ asPin = none ∧ asLink = none
  | some a =>
    match (mem a).kind with
    | .Node => asNode = some a ∧ asPin = none ∧ asLink = none
    | .Pin => asNode = none ∧ asPin = some a ∧ asLink = none
    | .Link => asNode = none ∧ asPin = none ∧ asLink = some a

/-- A memory for examples: address 1 holds a live node with default (empty)
bounds, address 2 a live pin owned by the node at 1, address 3 a link between
pins, every other address a node that is not live. -/
def exampleMemory : Memory Int := fun a =>
  if a = 1 then Object.node (exampleNode 1 true ⟨0, 0, 0, 0⟩)
  else if a = 2 then Object.pin { examplePin 10 true false ⟨2, 2, 4, 4⟩ with Node := some 1 }
  else if a = 3 then Object.link (exampleLink 100 true (some 2) (some 2))
  else Object.node (exampleNode 0 false ⟨0, 0, 8, 8⟩)

/-- What the binary search returns on a sorted table: everything before index `r` has a
smaller ID, everything from `r` on does not. -/
def isPartitionPoint (table : List ObjectWrapper) (id : Int) (r : Nat) : Prop :=
  r ≤ table.length ∧
  (∀ j (hj : j < table.length), j < r → table[j].ID < id) ∧
  (∀ j (hj : j < table.length), r ≤ j → id ≤ table[j].ID)

/-! ## Selection -/

/-- Modelled from the spec: the selection members of `EditorContext` are defined in
NodeEditor.cpp, which is not part of the sources.  Spec 4.2: the selection is "an
ordered-insertion set of Object references (no duplicates)" and "a monotonically increasing
`SelectionId` counter is bumped on any change".  `SelectedObjects` is the vector of `Object*`,
`SelectionId` the `uint64_t` counter. -/
structure Selection where
  SelectedObjects : List Nat
  SelectionId : Nat
deriving DecidableEq, Repr

/-- Modelled from the spec: `IsSelected(object)`, membership in the selection. -/
def Selection.IsSelected (s : Selection) (object : Nat) : Bool :=
  decide (object ∈ s.SelectedObjects)

/-- Modelled from the spec: the bump of the `uint64_t` counter `SelectionId` that every change of
the selection makes. -/
def Selection.bump (s : Selection) : Selection :=
  { s with SelectionId := (s.SelectionId + 1) % 18446744073709551616 }

/-- Modelled from the spec: `SelectObject(object)`, the add operation of the insertion-ordered
set: an object that is not selected is appended. -/
def Selection.SelectObject (s : Selection) (object : Nat) : Selection :=
  if s.IsSelected object then s
  else ({ s with SelectedObjects := s.SelectedObjects ++ [object] }).bump

/-- Modelled from the spec: `DeselectObject(object)`, the remove operation: a selected object is
erased. -/
def Selection.DeselectObject (s : Selection) (object : Nat) : Selection :=
  if s.IsSelected object then ({ s with SelectedObjects := s.SelectedObjects.erase object }).bump
  else s

/-- Modelled from the spec: `ToggleObjectSelection(object)`, the toggle operation: deselect a
selected object, select one that is not. -/
def Selection.ToggleObjectSelection (s : Selection) (object : Nat) : Selection :=
  if s.IsSelected object then s.DeselectObject object else s.SelectObject object

/-- A registry for examples: nodes 2, 5 and 9 at the addresses 20, 21, 22, the
node 5 not live. -/
def exampleRegistry : Registry Int :=
  { Nodes := [⟨2, 20⟩, ⟨5, 21⟩, ⟨9, 22⟩],
    mem := fun a =>
      if a = 20 then Object.node (exampleNode 2 true ⟨0, 0, 8, 8⟩)
      else if a = 21 then Object.node (exampleNode 5 false ⟨10, 0, 8, 8⟩)
      else Object.node (exampleNode 9 true ⟨20, 0, 8, 8⟩),
    this := some 1,
    nextAddress := 23 }

/-! ## Creation of pins and links -/

/-- Modelled from the spec: the tables `Pins` and `Links` of `EditorContext`
(declared in the header next to `Nodes`), the two members `CreatePin` and
`CreateLink` use besides the state in `Registry`; each is "kept sorted by ID". -/
structure PinLinkTables where
  Pins : List ObjectWrapper
  Links : List ObjectWrapper
deriving DecidableEq, Repr

/-- Modelled from the spec: `EditorContext::FindPin` is defined in
NodeEditor.cpp, not part of the sources.  Spec 4.2: "lookup without creation or
revival; returns null if absent regardless of liveness". -/
def PinLinkTables.FindPin (t : PinLinkTables) (id : Int) : Ptr :=
  match t.Pins[lower_bound t.Pins id]? with
  | some entry => if entry.ID = id then some entry.Object else none
  | none => none

/-- Modelled from the spec: `EditorContext::FindLink`, as `FindPin` on the table
`Links`. -/
def PinLinkTables.FindLink (t : PinLinkTables) (id : Int) : Ptr :=
  match t.Links[lower_bound t.Links id]? with
  | some entry => if entry.ID = id then some entry.Object else none
  | none => none

/-- Modelled from the spec: `EditorContext::CreatePin` is defined in
NodeEditor.cpp, not part of the sources.  Spec 4.2: "binary-search by ID; if
found, return existing and mark live; else insert new object at the sorted
position ... and return it".  The result is the new state and the returned
`Pin*`. -/
def Registry.CreatePin (lib : Lib F) (s : Registry F) (t : PinLinkTables) (id : Int)
    (kind : PinKind) : (Registry F × PinLinkTables) × Nat :=
  let index := lower_bound t.Pins id
  let create : (Registry F × PinLinkTables) × Nat :=
    (({ s with
          mem := Function.update s.mem s.nextAddress
            (Object.pin (Pin.new lib s.this id kind)),
          nextAddress := s.nextAddress + 1 },
        { t with Pins := t.Pins.take index ++ ⟨id, s.nextAddress⟩ :: t.Pins.drop index }),
      s.nextAddress)
  match t.Pins[index]? with
  | some entry =>
    if entry.ID = id then
      (({ s with mem := Function.update s.mem entry.Object (s.mem entry.Object).setLive }, t),
        entry.Object)
    else create
  | none => create

/-- Modelled from the spec: `EditorContext::CreateLink`, as `CreatePin` on the
table `Links` with the constructor `Link::Link`. -/
def Registry.CreateLink (lib : Lib F) (s : Registry F) (t : PinLinkTables) (id : Int) :
    (Registry F × PinLinkTables) × Nat :=
  let index := lower_bound t.Links id
  let create : (Registry F × PinLinkTables) × Nat :=
    (({ s with
          mem := Function.update s.mem s.nextAddress (Object.link (Link.new lib s.this id)),
          nextAddress := s.nextAddress + 1 },
        { t with Links := t.Links.take index ++ ⟨id, s.nextAddress⟩ :: t.Links.drop index }),
      s.nextAddress)
  match t.Links[index]? with
  | some entry =>
    if entry.ID = id then
      (({ s with mem := Function.update s.mem entry.Object (s.mem entry.Object).setLive }, t),
        entry.Object)
    else create
  | none => create

/-- Tables for examples: pins 10 and 30 at the addresses 40 and 41, link 100 at
the address 50. -/
def exampleTables : PinLinkTables :=
  { Pins := [⟨10, 40⟩, ⟨30, 41⟩], Links := [⟨100, 50⟩] }

/-! ## The ordering of table entries -/

/-- The member `ObjectWrapper::operator<`. -/
def ObjectWrapper.lt (lhs rhs : ObjectWrapper) : Bool :=
  decide (lhs.ID < rhs.ID)

/-! ## Actions and their downcasts -/

/-- The eight `final` classes derived from `EditorAction`; `EditorAction` itself
is abstract (`GetName`, `Accept` and `Process` are pure virtual). -/
inductive ActionKind where
  | Navigate
  | Size
  | Drag
  | Select
  | ContextMenu
  | Shortcut
  | CreateItem
  | DeleteItems
deriving DecidableEq, Repr

/-- The virtual `AsNavigate()` on the action at address `this` whose class is
`self`: `NavigateAction` overrides it to return `this`, the rest inherit
`nullptr`. -/
def EditorAction.AsNavigate (self : ActionKind) (this : Nat) : Ptr :=
  match self with
  | .Navigate => some this
  | _ => none

/-- The virtual `AsSize()`: overridden by `SizeAction`. -/
def EditorAction.AsSize (self : ActionKind) (this : Nat) : Ptr :=
  match self with
  | .Size => some this
  | _ => none

/-- The virtual `AsDrag()`: overridden by `DragAction`. -/
def EditorAction.AsDrag (self : ActionKind) (this : Nat) : Ptr :=
  match self with
  | .Drag => some this
  | _ => none

/-- The virtual `AsSelect()`: overridden by `SelectAction`. -/
def EditorAction.AsSelect (self : ActionKind) (this : Nat) : Ptr :=
  match self with
  | .Select => some this
  | _ => none

/-- The virtual `AsCreateItem()`: overridden by `CreateItemAction`. -/
def EditorAction.AsCreateItem (self : ActionKind) (this : Nat) : Ptr :=
  match self with
  | .CreateItem => some this
  | _ => none

/-- The virtual `AsDeleteItems()`: overridden by `DeleteItemsAction`. -/
def EditorAction.AsDeleteItems (self : ActionKind) (this : Nat) : Ptr :=
  match self with
  | .DeleteItems => some this
  | _ => none

/-- The virtual `AsContextMenu()`: overridden by `ContextMenuAction`. -/
def EditorAction.AsContextMenu (self : ActionKind) (this : Nat) : Ptr :=
  match self with
  | .ContextMenu => some this
  | _ => none

/-- The virtual `AsCutCopyPaste()`: overridden by `ShortcutAction`. -/
def EditorAction.AsCutCopyPaste (self : ActionKind) (this : Nat) : Ptr :=
  match self with
  | .Shortcut => some this
  | _ => none

/-- The eight downcast methods of `EditorAction`, in the order of declaration. -/
inductive Downcast where
  | AsNavigate
  | AsSize
  | AsDrag
  | AsSelect
  | AsCreateItem
  | AsDeleteItems
  | AsContextMenu
  | AsCutCopyPaste
deriving DecidableEq, Repr

/-- A call of one of the eight downcast methods. -/
def EditorAction.downcast (method : Downcast) (self : ActionKind) (this : Nat) : Ptr :=
  match method with
  | .AsNavigate => EditorAction.AsNavigate self this
  | .AsSize => EditorAction.AsSize self this
  | .AsDrag => EditorAction.AsDrag self this
  | .AsSelect => EditorAction.AsSelect self this
  | .AsCreateItem => EditorAction.AsCreateItem self this
  | .AsDeleteItems => EditorAction.AsDeleteItems self this
  | .AsContextMenu => EditorAction.AsContextMenu self this
  | .AsCutCopyPaste => EditorAction.AsCutCopyPaste self this

/-- The downcast C13 assigns to each action kind: the one of the same name, and
`AsCutCopyPaste` for `ShortcutAction`. -/
def ActionKind.ownDowncast : ActionKind → Downcast
  | .Navigate => .AsNavigate
  | .Size => .AsSize
  | .Drag => .AsDrag
  | .Select => .AsSelect
  | .ContextMenu => .AsContextMenu
  | .Shortcut => .AsCutCopyPaste
  | .CreateItem => .AsCreateItem
  | .DeleteItems => .AsDeleteItems

/-! ## Negated points -/

/-- The negation `-p` of an `ax::point`, coordinate by coordinate, in `int`
arithmetic. -/
def point.neg (p : point) : point :=
  ⟨wrap32 (-p.x), wrap32 (-p.y)⟩

/-! ## Drag and selection capabilities -/

/-- The three drag members that `Node` overrides and the header only declares
(`Node::AcceptDrag`, `Node::UpdateDrag`, `Node::EndDrag`): each gives the node
it leaves behind, the two `bool` ones their result as well. -/
structure NodeDrag (F : Type) where
  AcceptDrag : Node F → Bool × Node F
  UpdateDrag : Node F → point → Node F
  EndDrag : Node F → Bool × Node F

/-- The virtual `AcceptDrag()`: the result and the object afterwards.  `Object`
returns false; only `Node` overrides it. -/
def Object.AcceptDrag (nodeDrag : NodeDrag F) (self : Object F) : Bool × Object F :=
  match self with
  | .node n => ((nodeDrag.AcceptDrag n).1, .node (nodeDrag.AcceptDrag n).2)
  | _ => (false, self)

/-- The virtual `UpdateDrag(offset)`: the object afterwards.  `Object` has an
empty body; only `Node` overrides it. -/
def Object.UpdateDrag (nodeDrag : NodeDrag F) (self : Object F) (offset : point) : Object F :=
  match self with
  | .node n => .node (nodeDrag.UpdateDrag n offset)
  | _ => self

/-- The virtual `EndDrag()`: the result and the object afterwards.  `Object`
returns false; only `Node` overrides it. -/
def Object.EndDrag (nodeDrag : NodeDrag F) (self : Object F) : Bool × Object F :=
  match self with
  | .node n => ((nodeDrag.EndDrag n).1, .node (nodeDrag.EndDrag n).2)
  | _ => (false, self)

/-- The virtual `IsDraggable()`, which no class overrides:
`bool result = AcceptDrag(); EndDrag(); return result;`. -/
def Object.IsDraggable (nodeDrag : NodeDrag F) (self : Object F) : Bool × Object F :=
  let accepted := self.AcceptDrag nodeDrag
  let result := accepted.1
  let ended := accepted.2.EndDrag nodeDrag
  (result, ended.2)

/-- The virtual `IsSelectable()`: `Object` returns false, `Node` and `Link`
override it to return true. -/
def Object.IsSelectable : Object F → Bool
  | .node _ => true
  | .pin _ => false
  | .link _ => true

/-- Stand-ins for the drag members of `Node`, for examples: a node accepts a
drag when it is live, follows the offset, and reports a change at the end. -/
def exampleNodeDrag : NodeDrag Int where
  AcceptDrag n := (n.IsLive, { n with DragStart := ⟨n.Bounds.x, n.Bounds.y⟩ })
  UpdateDrag n offset :=
    { n with
      Bounds := { n.Bounds with x := n.DragStart.x + offset.x, y := n.DragStart.y + offset.y } }
  EndDrag n := (decide (n.DragStart ≠ ⟨n.Bounds.x, n.Bounds.y⟩), n)

/-! # Theorems -/

/-! ## Liveness and the spatial predicates -/

/-- C1: a Node or Pin that is not live answers false to the point hit test (for
every point and every extra thickness), to the rectangle hit test (for every
rectangle and both values of allowIntersect) and to IsVisible, whatever its
bounds are. -/
theorem not_live_answers_false (lib : Lib F) (o : Object F)
    (hkind : o.kind ≠ ObjectKind.Link) (hdead : o.IsLive = false) :
    (∀ (point : ImVec2 F) (extraThickness : F), o.TestHit lib point extraThickness = false) ∧
    (∀ (r : rectf F) (allowIntersect : Bool), o.TestHitRect lib r allowIntersect = false) ∧
    o.IsVisible lib = false := by
  refine ⟨?_, ?_, ?_⟩
  · intro point extraThickness
    cases o with
    | link l => exact absurd rfl hkind
    | node n => simp [Object.TestHit, Object.baseTestHit, hdead]
    | pin p => simp [Object.TestHit, Object.baseTestHit, hdead]
  · intro r allowIntersect
    cases o with
    | link l => exact absurd rfl hkind
    | node n => simp [Object.TestHitRect, Object.baseTestHitRect, hdead]
    | pin p => simp [Object.TestHitRect, Object.baseTestHitRect, hdead]
  · simp [Object.IsVisible, hdead]

/-- Witness for C1: a pin that is not live, whose bounds contain the point
(5, 5) and lie inside the queried rectangle. -/
theorem not_live_answers_false_witness :
    (Object.pin (examplePin 7 false true ⟨0, 0, 10, 10⟩)).kind ≠ ObjectKind.Link ∧
    (Object.pin (examplePin 7 false true ⟨0, 0, 10, 10⟩)).IsLive = false ∧
    (Object.pin (examplePin 7 false true ⟨0, 0, 10, 10⟩)).TestHit intLib ⟨5, 5⟩ 0 = false ∧
    (Object.pin (examplePin 7 false true ⟨0, 0, 10, 10⟩)).TestHitRect intLib
      ⟨-5, -5, 30, 30⟩ true = false ∧
    (Object.pin (examplePin 7 false true ⟨0, 0, 10, 10⟩)).IsVisible intLib = false :=
  have h := not_live_answers_false intLib (Object.pin (examplePin 7 false true ⟨0, 0, 10, 10⟩))
    (by decide) (by decide)
  ⟨by decide, by decide, h.1 ⟨5, 5⟩ 0, h.2.1 ⟨-5, -5, 30, 30⟩ true, h.2.2⟩

/-! ## Bounds aggregation -/

/-- The loop of `GetBounds` from any starting rectangle: not-live objects can be
dropped from the list beforehand. -/
theorem GetBounds_loop_filter (lib : Lib F) (mem : Memory F) (objects : List Nat)
    (start : rectf F) :
    objects.foldl
      (fun bounds object =>
        if (mem object).IsLive then lib.make_union bounds ((mem object).GetBounds lib) else bounds)
      start
    = ((objects.filter (fun a => (mem a).IsLive)).map (fun a => (mem a).GetBounds lib)).foldl
        lib.make_union start := by
  induction objects generalizing start with
  | nil => rfl
  | cons a rest ih =>
    by_cases hlive : (mem a).IsLive = true
    · simp [List.filter, hlive, ih]
    · simp [List.filter, hlive, ih]

/-- C2: GetBounds of a list equals GetBounds of the list without its not-live
objects, which is the left-to-right make_union fold from the default rectangle
over the bounds of the live objects; with no object, or no live object, it is
the default rectangle.  Both overloads. -/
theorem GetBounds_ignores_not_live (lib : Lib F) (mem : Memory F) (objects : List Nat)
    (wrapped : List ObjectWrapper) :
    (EditorContext.GetBounds lib mem objects
        = EditorContext.GetBounds lib mem (objects.filter (fun a => (mem a).IsLive))
      ∧ EditorContext.GetBounds lib mem objects
        = ((objects.filter (fun a => (mem a).IsLive)).map (fun a => (mem a).GetBounds lib)).foldl
            lib.make_union lib.rectf_default
      ∧ EditorContext.GetBounds lib mem [] = lib.rectf_default
      ∧ ((∀ a ∈ objects, (mem a).IsLive = false) →
          EditorContext.GetBounds lib mem objects = lib.rectf_default))
    ∧ (EditorContext.GetBoundsWrapped lib mem wrapped
        = EditorContext.GetBoundsWrapped lib mem
            (wrapped.filter (fun w => (mem w.Object).IsLive))
      ∧ EditorContext.GetBoundsWrapped lib mem wrapped
        = ((wrapped.filter (fun w => (mem w.Object).IsLive)).map
            (fun w => (mem w.Object).GetBounds lib)).foldl lib.make_union lib.rectf_default
      ∧ EditorContext.GetBoundsWrapped lib mem [] = lib.rectf_default
      ∧ ((∀ w ∈ wrapped, (mem w.Object).IsLive = false) →
          EditorContext.GetBoundsWrapped lib mem wrapped = lib.rectf_default)) := by
  have hw : ∀ (ws : List ObjectWrapper),
      EditorContext.GetBoundsWrapped lib mem ws = EditorContext.GetBounds lib mem (ws.map (·.Object)) := by
    intro ws
    simp [EditorContext.GetBoundsWrapped, EditorContext.GetBounds, List.foldl_map]
  have hfold : ∀ (os : List Nat), EditorContext.GetBounds lib mem os
      = ((os.filter (fun a => (mem a).IsLive)).map (fun a => (mem a).GetBounds lib)).foldl
          lib.make_union lib.rectf_default :=
    fun os => GetBounds_loop_filter lib mem os lib.rectf_default
  have hnone : ∀ (os : List Nat), (∀ a ∈ os, (mem a).IsLive = false) →
      EditorContext.GetBounds lib mem os = lib.rectf_default := by
    intro os hall
    rw [hfold, List.filter_eq_nil_iff.mpr (by simpa using hall)]
    rfl
  have hfilter : ∀ (os : List Nat), EditorContext.GetBounds lib mem os
      = EditorContext.GetBounds lib mem (os.filter (fun a => (mem a).IsLive)) := by
    intro os
    rw [hfold os, hfold (os.filter _), List.filter_filter]
    simp
  refine ⟨⟨hfilter objects, hfold objects, rfl, hnone objects⟩, ?_, ?_, rfl, ?_⟩
  · rw [hw, hw, hfilter, List.filter_map]
    rfl
  · rw [hw, hfold, List.filter_map, List.map_map]
    rfl
  · intro hall
    rw [hw]
    exact hnone _ (by simpa using hall)

/-! ## Reset -/

/-- C3 (as the code has it): after Pin::Reset the pin is not live, HasConnection
is false, and HadConnection is the conjunction of the HasConnection and IsLive
values held before the reset; so for a pin that was live it is the HasConnection
value held before the reset. -/
theorem Pin_Reset_flags (p : Pin F) :
    p.Reset.IsLive = false ∧ p.Reset.HasConnection = false ∧
    p.Reset.HadConnection = (p.HasConnection && p.IsLive) ∧
    (p.IsLive = true → p.Reset.HadConnection = p.HasConnection) := by
  refine ⟨rfl, rfl, rfl, ?_⟩
  intro hlive
  simp [Pin.Reset, hlive]

/-- Witness for the amended C3: a live, connected pin. -/
theorem Pin_Reset_flags_witness :
    (examplePin 3 true true ⟨0, 0, 4, 4⟩).IsLive = true ∧
    (examplePin 3 true true ⟨0, 0, 4, 4⟩).Reset.HadConnection
      = (examplePin 3 true true ⟨0, 0, 4, 4⟩).HasConnection :=
  ⟨rfl, (Pin_Reset_flags (examplePin 3 true true ⟨0, 0, 4, 4⟩)).2.2.2 rfl⟩

/-- C3 as stated fails: a pin that is not live but has HasConnection set (a link
was declared on a pin not touched this frame) ends with HadConnection false,
not with the HasConnection value held before the reset. -/
theorem Pin_Reset_HadConnection_not_snapshot :
    (examplePin 3 false true ⟨0, 0, 4, 4⟩).HasConnection = true ∧
    (examplePin 3 false true ⟨0, 0, 4, 4⟩).Reset.HadConnection = false ∧
    ¬ ((examplePin 3 false true ⟨0, 0, 4, 4⟩).Reset.HadConnection
        = (examplePin 3 false true ⟨0, 0, 4, 4⟩).HasConnection) := by
  decide

/-- C8: Reset of a Node or a Link only clears IsLive; Reset of a Pin only
changes IsLive, HasConnection and HadConnection, so ID, Kind, owner Node, Bounds
and Pivot are kept and GetBounds returns the same rectangle before and after. -/
theorem Reset_keeps_identity_and_bounds (lib : Lib F) (n : Node F) (l : Link F) (p : Pin F) :
    (Object.node n).Reset = Object.node { n with IsLive := false } ∧
    (Object.link l).Reset = Object.link { l with IsLive := false } ∧
    (Object.pin p).Reset = Object.pin { p with
        IsLive := false, HasConnection := false,
        HadConnection := p.HasConnection && p.IsLive } ∧
    (p.Reset.ID = p.ID ∧ p.Reset.Kind = p.Kind ∧ p.Reset.Node = p.Node ∧
      p.Reset.Bounds = p.Bounds ∧ p.Reset.Pivot = p.Pivot) ∧
    ((Object.node n).Reset.ID = n.ID ∧ (Object.link l).Reset.ID = l.ID) ∧
    (Object.pin p).Reset.GetBounds lib = (Object.pin p).GetBounds lib ∧
    (Object.node n).Reset.GetBounds lib = (Object.node n).GetBounds lib :=
  ⟨rfl, rfl, rfl, ⟨rfl, rfl, rfl, rfl, rfl⟩, ⟨rfl, rfl⟩, rfl, rfl⟩

/-! ## Grid alignment -/

/-- The truncating remainder by 16 in terms of the flooring one. -/
theorem tmod16_cases (x : Int) :
    (0 ≤ x ∧ Int.tmod x 16 = x % 16) ∨ (x < 0 ∧ Int.tmod x 16 = -((-x) % 16)) := by
  cases x with
  | ofNat m =>
    left
    exact ⟨Int.ofNat_nonneg m, Int.tmod_eq_emod (Int.ofNat_nonneg m) (by decide)⟩
  | negSucc m =>
    right
    refine ⟨Int.negSucc_lt_zero m, ?_⟩
    show -((↑((m + 1) % 16) : Int)) = -((-(Int.negSucc m)) % 16)
    rw [Int.neg_negSucc]
    norm_cast

/-- One coordinate of AlignPointToGrid without Alt: no wrap occurs, and the
result is the coordinate minus its truncating remainder by 16. -/
theorem align_coordinate (x : Int) (hx : isInt32 x) :
    wrap32 (x - wrap32 (Int.tmod (wrap32 (x + 0)) 16 - 0)) = x - Int.tmod x 16 := by
  unfold isInt32 at hx
  have h0 : wrap32 (x + 0) = x := by unfold wrap32; omega
  rw [h0]
  rcases tmod16_cases x with ⟨hpos, hr⟩ | ⟨hneg, hr⟩
  · rw [hr]; unfold wrap32; omega
  · rw [hr]; unfold wrap32; omega

/-- C9: without Alt both coordinates of AlignPointToGrid(p) are multiples of 16
(truncating remainder 0) and each differs from the coordinate of p by at most
15; with Alt the result is p. -/
theorem AlignPointToGrid_aligned (p : point) (hx : isInt32 p.x) (hy : isInt32 p.y) :
    (Int.tmod (EditorContext.AlignPointToGrid false p).x 16 = 0 ∧
      Int.tmod (EditorContext.AlignPointToGrid false p).y 16 = 0 ∧
      |(EditorContext.AlignPointToGrid false p).x - p.x| ≤ 15 ∧
      |(EditorContext.AlignPointToGrid false p).y - p.y| ≤ 15) ∧
    EditorContext.AlignPointToGrid true p = p := by
  have key : ∀ x : Int, Int.tmod (x - Int.tmod x 16) 16 = 0 ∧ |x - Int.tmod x 16 - x| ≤ 15 := by
    intro x
    constructor
    · apply Int.tmod_eq_zero_of_dvd
      rcases tmod16_cases x with ⟨_, hr⟩ | ⟨_, hr⟩ <;> rw [hr] <;> omega
    · rw [abs_le]
      rcases tmod16_cases x with ⟨_, hr⟩ | ⟨_, hr⟩ <;> rw [hr] <;> omega
  have ex : (EditorContext.AlignPointToGrid false p).x = p.x - Int.tmod p.x 16 :=
    align_coordinate p.x hx
  have ey : (EditorContext.AlignPointToGrid false p).y = p.y - Int.tmod p.y 16 :=
    align_coordinate p.y hy
  rw [ex, ey]
  exact ⟨⟨(key p.x).1, (key p.y).1, (key p.x).2, (key p.y).2⟩, rfl⟩

/-- Witness for C9: the point (-17, 35) snaps to (-16, 32). -/
theorem AlignPointToGrid_aligned_witness :
    isInt32 (-17) ∧ isInt32 35 ∧
    EditorContext.AlignPointToGrid false ⟨-17, 35⟩ = ⟨-16, 32⟩ ∧
    (Int.tmod (EditorContext.AlignPointToGrid false ⟨-17, 35⟩).x 16 = 0 ∧
      Int.tmod (EditorContext.AlignPointToGrid false ⟨-17, 35⟩).y 16 = 0 ∧
      |(EditorContext.AlignPointToGrid false ⟨-17, 35⟩).x - (-17)| ≤ 15 ∧
      |(EditorContext.AlignPointToGrid false ⟨-17, 35⟩).y - 35| ≤ 15) ∧
    EditorContext.AlignPointToGrid true ⟨-17, 35⟩ = ⟨-17, 35⟩ :=
  ⟨by decide, by decide, by decide,
    AlignPointToGrid_aligned ⟨-17, 35⟩ (by decide) (by decide)⟩

/-! ## Rectangle hit test -/

/-- C7 (as the code has it): for a live Node or Pin the rectangle hit test is
true exactly when the bounds are not empty and intersect r (allowIntersect) or
are not empty and lie inside r (otherwise); for non-empty bounds it is the
intersection or containment test alone. -/
theorem TestHitRect_of_live (lib : Lib F) (o : Object F) (r : rectf F)
    (hkind : o.kind ≠ ObjectKind.Link) (hlive : o.IsLive = true) :
    (o.TestHitRect lib r true = true ↔
      lib.is_empty (o.GetBounds lib) = false ∧ lib.intersects (o.GetBounds lib) r = true) ∧
    (o.TestHitRect lib r false = true ↔
      lib.is_empty (o.GetBounds lib) = false ∧ lib.contains_rect r (o.GetBounds lib) = true) ∧
    (lib.is_empty (o.GetBounds lib) = false →
      o.TestHitRect lib r true = lib.intersects (o.GetBounds lib) r ∧
      o.TestHitRect lib r false = lib.contains_rect r (o.GetBounds lib)) := by
  have hbase : ∀ allow, o.TestHitRect lib r allow = o.baseTestHitRect lib r allow := by
    intro allow
    cases o with
    | link l => exact absurd rfl hkind
    | node n => rfl
    | pin p => rfl
  simp [hbase, Object.baseTestHitRect, hlive]
  intro hne
  simp [hne]

/-- Witness for the amended C7: a live node with bounds (0, 0, 10, 10) and the
query rectangle (5, 5, 20, 20), which it intersects without lying inside. -/
theorem TestHitRect_of_live_witness :
    (Object.node (exampleNode 1 true ⟨0, 0, 10, 10⟩)).kind ≠ ObjectKind.Link ∧
    (Object.node (exampleNode 1 true ⟨0, 0, 10, 10⟩)).IsLive = true ∧
    (Object.node (exampleNode 1 true ⟨0, 0, 10, 10⟩)).TestHitRect intLib ⟨5, 5, 20, 20⟩ true = true ∧
    (Object.node (exampleNode 1 true ⟨0, 0, 10, 10⟩)).TestHitRect intLib ⟨5, 5, 20, 20⟩ false = false ∧
    ((Object.node (exampleNode 1 true ⟨0, 0, 10, 10⟩)).TestHitRect intLib ⟨5, 5, 20, 20⟩ true = true ↔
      intLib.is_empty ((Object.node (exampleNode 1 true ⟨0, 0, 10, 10⟩)).GetBounds intLib) = false ∧
      intLib.intersects ((Object.node (exampleNode 1 true ⟨0, 0, 10, 10⟩)).GetBounds intLib)
        ⟨5, 5, 20, 20⟩ = true) :=
  ⟨by decide, by decide, by decide, by decide,
    (TestHitRect_of_live intLib (Object.node (exampleNode 1 true ⟨0, 0, 10, 10⟩)) ⟨5, 5, 20, 20⟩
      (by decide) (by decide)).1⟩

/-- C7 as stated fails: a live node with the default, empty bounds (0, 0, 0, 0)
lies inside the rectangle (-10, -10, 20, 20) and intersects it, yet both
rectangle hit tests answer false. -/
theorem TestHitRect_rejects_empty_bounds :
    (Object.node (exampleNode 1 true ⟨0, 0, 0, 0⟩)).IsLive = true ∧
    intLib.contains_rect ⟨-10, -10, 20, 20⟩
      ((Object.node (exampleNode 1 true ⟨0, 0, 0, 0⟩)).GetBounds intLib) = true ∧
    (Object.node (exampleNode 1 true ⟨0, 0, 0, 0⟩)).TestHitRect intLib ⟨-10, -10, 20, 20⟩ false
      = false ∧
    intLib.intersects ((Object.node (exampleNode 1 true ⟨0, 0, 0, 0⟩)).GetBounds intLib)
      ⟨-10, -10, 20, 20⟩ = true ∧
    (Object.node (exampleNode 1 true ⟨0, 0, 0, 0⟩)).TestHitRect intLib ⟨-10, -10, 20, 20⟩ true
      = false := by
  decide

/-! ## Control -/

/-- The three downcasts of the object at an address, by its kind. -/
theorem downcasts_by_kind (mem : Memory F) (a : Nat) :
    typedPointersMatch mem (some a) (Object.AsNode mem a) (Object.AsPin mem a)
      (Object.AsLink mem a) := by
  unfold typedPointersMatch Object.AsNode Object.AsPin Object.AsLink
  cases h : mem a <;> simp [Object.kind, h]

/-- C10: the constructed Control stores the four object pointers and the four
background flags unchanged, and for each of the roles active, clicked and
double-clicked the three typed pointers are null when the role has no object,
and otherwise exactly the one of the object's kind is set, to the object. -/
theorem Control_new_stores_and_resolves (mem : Memory F)
    (hotObject activeObject clickedObject doubleClickedObject : Ptr)
    (backgroundHot backgroundActive backgroundClicked backgroundDoubleClicked : Bool) :
    ((Control.new mem hotObject activeObject clickedObject doubleClickedObject backgroundHot
        backgroundActive backgroundClicked backgroundDoubleClicked).HotObject = hotObject ∧
      (Control.new mem hotObject activeObject clickedObject doubleClickedObject backgroundHot
        backgroundActive backgroundClicked backgroundDoubleClicked).ActiveObject = activeObject ∧
      (Control.new mem hotObject activeObject clickedObject doubleClickedObject backgroundHot
        backgroundActive backgroundClicked backgroundDoubleClicked).ClickedObject = clickedObject ∧
      (Control.new mem hotObject activeObject clickedObject doubleClickedObject backgroundHot
        backgroundActive backgroundClicked backgroundDoubleClicked).DoubleClickedObject
          = doubleClickedObject ∧
      (Control.new mem hotObject activeObject clickedObject doubleClickedObject backgroundHot
        backgroundActive backgroundClicked backgroundDoubleClicked).BackgroundHot = backgroundHot ∧
      (Control.new mem hotObject activeObject clickedObject doubleClickedObject backgroundHot
        backgroundActive backgroundClicked backgroundDoubleClicked).BackgroundActive
          = backgroundActive ∧
      (Control.new mem hotObject activeObject clickedObject doubleClickedObject backgroundHot
        backgroundActive backgroundClicked backgroundDoubleClicked).BackgroundClicked
          = backgroundClicked ∧
      (Control.new mem hotObject activeObject clickedObject doubleClickedObject backgroundHot
        backgroundActive backgroundClicked backgroundDoubleClicked).BackgroundDoubleClicked
          = backgroundDoubleClicked) ∧
    typedPointersMatch mem activeObject
      (Control.new mem hotObject activeObject clickedObject doubleClickedObject backgroundHot
        backgroundActive backgroundClicked backgroundDoubleClicked).ActiveNode
      (Control.new mem hotObject activeObject clickedObject doubleClickedObject backgroundHot
        backgroundActive backgroundClicked backgroundDoubleClicked).ActivePin
      (Control.new mem hotObject activeObject clickedObject doubleClickedObject backgroundHot
        backgroundActive backgroundClicked backgroundDoubleClicked).ActiveLink ∧
    typedPointersMatch mem clickedObject
      (Control.new mem hotObject activeObject clickedObject doubleClickedObject backgroundHot
        backgroundActive backgroundClicked backgroundDoubleClicked).ClickedNode
      (Control.new mem hotObject activeObject clickedObject doubleClickedObject backgroundHot
        backgroundActive backgroundClicked backgroundDoubleClicked).ClickedPin
      (Control.new mem hotObject activeObject clickedObject doubleClickedObject backgroundHot
        backgroundActive backgroundClicked backgroundDoubleClicked).ClickedLink ∧
    typedPointersMatch mem doubleClickedObject
      (Control.new mem hotObject activeObject clickedObject doubleClickedObject backgroundHot
        backgroundActive backgroundClicked backgroundDoubleClicked).DoubleClickedNode
      (Control.new mem hotObject activeObject clickedObject doubleClickedObject backgroundHot
        backgroundActive backgroundClicked backgroundDoubleClicked).DoubleClickedPin
      (Control.new mem hotObject activeObject clickedObject doubleClickedObject backgroundHot
        backgroundActive backgroundClicked backgroundDoubleClicked).DoubleClickedLink := by
  have hnull : typedPointersMatch mem none none none none := ⟨rfl, rfl, rfl⟩
  refine ⟨?_, ?_, ?_, ?_⟩
  · cases hotObject <;> cases activeObject <;> cases clickedObject <;>
      cases doubleClickedObject <;> simp [Control.new] <;> split <;> simp
  · cases hotObject <;> cases activeObject <;> cases clickedObject <;>
      cases doubleClickedObject <;>
      first
        | exact hnull
        | exact downcasts_by_kind mem _
        | (simp only [Control.new]; split <;> exact hnull)
  · cases hotObject <;> cases activeObject <;> cases clickedObject <;>
      cases doubleClickedObject <;>
      first
        | exact hnull
        | exact downcasts_by_kind mem _
        | (simp only [Control.new]; split <;> exact hnull)
  · cases hotObject <;> cases activeObject <;> cases clickedObject <;>
      cases doubleClickedObject <;>
      first
        | exact hnull
        | exact downcasts_by_kind mem _
        | (simp only [Control.new]; split <;> exact hnull)

/-! ## Scene registry -/

/-- The search loop keeps the searched range around the partition point and ends on it. -/
theorem lowerBoundLoop_partition (table : List ObjectWrapper) (id : Int)
    (hs : table.Pairwise (fun a b => a.ID < b.ID)) :
    ∀ (fuel first count : Nat), count ≤ fuel → first + count ≤ table.length →
      (∀ j (hj : j < table.length), j < first → table[j].ID < id) →
      (∀ j (hj : j < table.length), first + count ≤ j → id ≤ table[j].ID) →
      isPartitionPoint table id (lowerBoundLoop table id fuel first count) := by
  intro fuel
  induction fuel with
  | zero =>
    intro first count hc hlen hlo hhi
    have : count = 0 := by omega
    subst this
    exact ⟨by simpa using hlen, hlo, fun j hj h => hhi j hj (by simpa using h)⟩
  | succ fuel ih =>
    intro first count hc hlen hlo hhi
    unfold lowerBoundLoop
    by_cases h0 : count = 0
    · subst h0
      simp only [if_true]
      exact ⟨by simpa using hlen, hlo, fun j hj h => hhi j hj (by simpa using h)⟩
    · simp only [h0, if_false]
      have hit : first + count / 2 < table.length := by omega
      rw [List.getElem?_eq_getElem hit]
      simp only
      have hsorted := List.pairwise_iff_getElem.mp hs
      by_cases hlt : table[first + count / 2].ID < id
      · simp only [hlt, if_true]
        apply ih
        · omega
        · omega
        · intro j hj hjlt
          by_cases hji : j = first + count / 2
          · subst hji; exact hlt
          · have := hsorted j (first + count / 2) hj hit (by omega)
            omega
        · intro j hj hjge
          exact hhi j hj (by omega)
      · simp only [hlt, if_false]
        apply ih
        · omega
        · omega
        · exact hlo
        · intro j hj hjge
          by_cases hji : j = first + count / 2
          · subst hji; omega
          · have := hsorted (first + count / 2) j hit hj (by omega)
            omega

/-- On a sorted table the binary search returns the partition point of the ID. -/
theorem lower_bound_partition (table : List ObjectWrapper) (id : Int)
    (hs : table.Pairwise (fun a b => a.ID < b.ID)) :
    isPartitionPoint table id (lower_bound table id) := by
  unfold lower_bound
  apply lowerBoundLoop_partition table id hs
  · exact Nat.le_refl _
  · omega
  · intro j hj h; omega
  · intro j hj h; omega

/-- A table has one partition point for an ID. -/
theorem partitionPoint_unique (table : List ObjectWrapper) (id : Int) (r r' : Nat)
    (h : isPartitionPoint table id r) (h' : isPartitionPoint table id r') : r = r' := by
  obtain ⟨hl, hlo, hhi⟩ := h
  obtain ⟨hl', hlo', hhi'⟩ := h'
  rcases Nat.lt_trichotomy r r' with hlt | heq | hgt
  · have h1 := hlo' r (by omega) hlt
    have h2 := hhi r (by omega) (Nat.le_refl _)
    omega
  · exact heq
  · have h1 := hlo r' (by omega) hgt
    have h2 := hhi' r' (by omega) (Nat.le_refl _)
    omega

/-- In a sorted table that holds an entry with the searched ID, the binary search stops at
that entry. -/
theorem lower_bound_of_present (pre post : List ObjectWrapper) (entry : ObjectWrapper)
    (hs : (pre ++ entry :: post).Pairwise (fun a b => a.ID < b.ID)) :
    lower_bound (pre ++ entry :: post) entry.ID = pre.length ∧
    (pre ++ entry :: post)[lower_bound (pre ++ entry :: post) entry.ID]? = some entry := by
  have hat : ∀ (h : pre.length < (pre ++ entry :: post).length),
      (pre ++ entry :: post)[pre.length] = entry := by
    intro h
    rw [List.getElem_append_right (Nat.le_refl _)]
    simp
  have hlen : pre.length < (pre ++ entry :: post).length := by simp
  have hsorted := List.pairwise_iff_getElem.mp hs
  have hpart : isPartitionPoint (pre ++ entry :: post) entry.ID pre.length := by
    refine ⟨Nat.le_of_lt hlen, ?_, ?_⟩
    · intro j hj hlt
      have := hsorted j pre.length hj hlen hlt
      rwa [hat hlen] at this
    · intro j hj hge
      by_cases hji : j = pre.length
      · subst hji
        rw [hat hlen]
      · have := hsorted pre.length j hlen hj (by omega)
        rw [hat hlen] at this
        omega
  have heq := partitionPoint_unique _ _ _ _ (lower_bound_partition _ entry.ID hs) hpart
  refine ⟨heq, ?_⟩
  rw [heq, List.getElem?_eq_getElem hlen, hat hlen]

/-- In a sorted table an ID has one entry at most. -/
theorem filter_of_present (pre post : List ObjectWrapper) (entry : ObjectWrapper)
    (hs : (pre ++ entry :: post).Pairwise (fun a b => a.ID < b.ID)) :
    (pre ++ entry :: post).filter (fun w => decide (w.ID = entry.ID)) = [entry] := by
  obtain ⟨_, hpost, hcross⟩ := List.pairwise_append.mp hs
  have hpost' := (List.pairwise_cons.mp hpost).1
  have h1 : pre.filter (fun w => decide (w.ID = entry.ID)) = [] := by
    rw [List.filter_eq_nil_iff]
    intro a ha
    have := hcross a ha entry (List.mem_cons_self _ _)
    simp; omega
  have h2 : post.filter (fun w => decide (w.ID = entry.ID)) = [] := by
    rw [List.filter_eq_nil_iff]
    intro a ha
    have := hpost' a ha
    simp; omega
  rw [List.filter_append, h1, List.filter_cons, h2]
  simp

/-- Marking a live object live changes nothing. -/
theorem setLive_of_live (o : Object F) (h : o.IsLive = true) : o.setLive = o := by
  cases o with
  | node n =>
    have : n.IsLive = true := h
    cases n with
    | mk b => cases b; simp_all [Object.setLive]
  | pin p =>
    have : p.IsLive = true := h
    cases p with
    | mk b => cases b; simp_all [Object.setLive]
  | link l =>
    have : l.IsLive = true := h
    cases l with
    | mk b => cases b; simp_all [Object.setLive]

/-- On a sorted table that holds a live entry for the ID, CreateNode returns that entry's object
and changes nothing. -/
theorem CreateNode_of_present (lib : Lib F) (u : NodeIndeterminate F) (s : Registry F)
    (pre post : List ObjectWrapper) (entry : ObjectWrapper)
    (hnodes : s.Nodes = pre ++ entry :: post) (hs : s.sorted)
    (hlive : (s.mem entry.Object).IsLive = true) :
    Registry.CreateNode lib u s entry.ID = (s, entry.Object) := by
  unfold Registry.sorted at hs
  rw [hnodes] at hs
  have hfound := (lower_bound_of_present pre post entry hs).2
  unfold Registry.CreateNode
  simp only [hnodes, hfound, if_true]
  rw [setLive_of_live _ hlive, Function.update_eq_self]
  cases s
  simp_all

/-- An object marked live is live. -/
theorem setLive_IsLive (o : Object F) : o.setLive.IsLive = true := by
  cases o <;> rfl

/-- Inserting an absent ID at the index the binary search returns keeps the table sorted. -/
theorem insert_at_partition_sorted (table : List ObjectWrapper) (id : Int) (a : Nat)
    (hs : table.Pairwise (fun a b => a.ID < b.ID))
    (habsent : ∀ entry, table[lower_bound table id]? = some entry → entry.ID ≠ id) :
    (table.take (lower_bound table id) ++ ⟨id, a⟩ :: table.drop (lower_bound table id)).Pairwise
      (fun a b => a.ID < b.ID) := by
  obtain ⟨hle, hlo, hhi⟩ := lower_bound_partition table id hs
  have hsorted := List.pairwise_iff_getElem.mp hs
  have hbefore : ∀ e ∈ table.take (lower_bound table id), e.ID < id := by
    intro e he
    obtain ⟨j, hj, rfl⟩ := List.mem_take_iff_getElem.mp he
    exact hlo j (by omega) (by omega)
  have hafter : ∀ e ∈ table.drop (lower_bound table id), id < e.ID := by
    intro e he
    obtain ⟨j, hj, rfl⟩ := List.mem_drop_iff_getElem.mp he
    have hi : lower_bound table id < table.length := by omega
    have h1 := hhi (lower_bound table id) hi (Nat.le_refl _)
    have h2 := habsent _ (List.getElem?_eq_getElem hi)
    by_cases hj0 : j = 0
    · subst hj0
      simp only [Nat.add_zero]
      omega
    · have := hsorted (lower_bound table id) (lower_bound table id + j) hi (by omega) (by omega)
      omega
  rw [List.pairwise_append]
  refine ⟨hs.sublist (List.take_sublist _ _), ?_, ?_⟩
  · rw [List.pairwise_cons]
    exact ⟨hafter, hs.sublist (List.drop_sublist _ _)⟩
  · intro x hx y hy
    rcases List.mem_cons.mp hy with rfl | hy
    · exact hbefore x hx
    · have := hbefore x hx
      have := hafter y hy
      omega

/-- CreateNode when the search finds the ID. -/
theorem CreateNode_found (lib : Lib F) (u : NodeIndeterminate F) (s : Registry F) (id : Int)
    (entry : ObjectWrapper) (hget : s.Nodes[lower_bound s.Nodes id]? = some entry)
    (hid : entry.ID = id) :
    Registry.CreateNode lib u s id
      = ({ s with mem := Function.update s.mem entry.Object (s.mem entry.Object).setLive },
          entry.Object) := by
  unfold Registry.CreateNode
  simp only [hget, hid, if_true]

/-- CreateNode when the search does not find the ID. -/
theorem CreateNode_absent (lib : Lib F) (u : NodeIndeterminate F) (s : Registry F) (id : Int)
    (habsent : ∀ entry, s.Nodes[lower_bound s.Nodes id]? = some entry → entry.ID ≠ id) :
    Registry.CreateNode lib u s id
      = ({ s with
            Nodes := s.Nodes.take (lower_bound s.Nodes id) ++
              ⟨id, s.nextAddress⟩ :: s.Nodes.drop (lower_bound s.Nodes id),
            mem := Function.update s.mem s.nextAddress
              (Object.node (Node.new lib u s.this id)),
            nextAddress := s.nextAddress + 1 },
          s.nextAddress) := by
  unfold Registry.CreateNode
  cases hget : s.Nodes[lower_bound s.Nodes id]? with
  | none => simp only [hget]
  | some entry =>
    simp only [hget, habsent entry hget, if_false]

/-- The state after CreateNode: the table is sorted and holds an entry for the ID whose object is
the returned one, and that object is live. -/
theorem CreateNode_result (lib : Lib F) (u : NodeIndeterminate F) (s : Registry F) (id : Int)
    (hs : s.sorted) :
    ∃ pre post,
      (Registry.CreateNode lib u s id).1.Nodes
        = pre ++ ⟨id, (Registry.CreateNode lib u s id).2⟩ :: post ∧
      (Registry.CreateNode lib u s id).1.sorted ∧
      ((Registry.CreateNode lib u s id).1.mem (Registry.CreateNode lib u s id).2).IsLive = true := by
  by_cases hfound : ∃ entry, s.Nodes[lower_bound s.Nodes id]? = some entry ∧ entry.ID = id
  · obtain ⟨entry, hget, hid⟩ := hfound
    rw [CreateNode_found lib u s id entry hget hid]
    obtain ⟨hi, hentry⟩ := List.getElem?_eq_some.mp hget
    refine ⟨s.Nodes.take (lower_bound s.Nodes id), s.Nodes.drop (lower_bound s.Nodes id + 1),
      ?_, hs, ?_⟩
    · have : (⟨id, entry.Object⟩ : ObjectWrapper) = s.Nodes[lower_bound s.Nodes id] := by
        rw [hentry, ← hid]
      show s.Nodes = _
      rw [this, List.getElem_cons_drop, List.take_append_drop]
    · show (Function.update s.mem entry.Object (s.mem entry.Object).setLive entry.Object).IsLive
        = true
      rw [Function.update_same]
      exact setLive_IsLive _
  · have habsent : ∀ entry, s.Nodes[lower_bound s.Nodes id]? = some entry → entry.ID ≠ id :=
      fun entry hget hid => hfound ⟨entry, hget, hid⟩
    rw [CreateNode_absent lib u s id habsent]
    refine ⟨_, _, rfl, insert_at_partition_sorted s.Nodes id s.nextAddress hs habsent, ?_⟩
    show (Function.update s.mem s.nextAddress (Object.node (Node.new lib u s.this id))
      s.nextAddress).IsLive = true
    rw [Function.update_same]
    rfl

/-- C4: on a registry whose node table is sorted by ID, a second CreateNode(id)
in the same frame returns the same Node as the first and leaves the registry
(table and objects) unchanged; after the first call the table is sorted, holds
exactly one entry for id, the one of the returned node, the returned node is
live, and FindNode(id) finds it. -/
theorem CreateNode_idempotent (lib : Lib F) (u u' : NodeIndeterminate F) (s : Registry F)
    (id : Int) (hs : s.sorted) :
    (Registry.CreateNode lib u' (Registry.CreateNode lib u s id).1 id).2
      = (Registry.CreateNode lib u s id).2 ∧
    (Registry.CreateNode lib u' (Registry.CreateNode lib u s id).1 id).1
      = (Registry.CreateNode lib u s id).1 ∧
    (Registry.CreateNode lib u s id).1.sorted ∧
    (Registry.CreateNode lib u s id).1.Nodes.filter (fun w => decide (w.ID = id))
      = [⟨id, (Registry.CreateNode lib u s id).2⟩] ∧
    ((Registry.CreateNode lib u s id).1.mem (Registry.CreateNode lib u s id).2).IsLive = true ∧
    (Registry.CreateNode lib u s id).1.FindNode id = some (Registry.CreateNode lib u s id).2 := by
  obtain ⟨pre, post, hnodes, hsorted, hlive⟩ := CreateNode_result lib u s id hs
  have hagain := CreateNode_of_present lib u' (Registry.CreateNode lib u s id).1 pre post
    ⟨id, (Registry.CreateNode lib u s id).2⟩ hnodes hsorted hlive
  have hsorted' := hsorted
  unfold Registry.sorted at hsorted'
  rw [hnodes] at hsorted'
  have hfilter := filter_of_present pre post ⟨id, (Registry.CreateNode lib u s id).2⟩ hsorted'
  have hfind := (lower_bound_of_present pre post ⟨id, (Registry.CreateNode lib u s id).2⟩
    hsorted').2
  refine ⟨?_, ?_, hsorted, ?_, hlive, ?_⟩
  · exact congrArg Prod.snd hagain
  · exact congrArg Prod.fst hagain
  · rw [hnodes]; exact hfilter
  · unfold Registry.FindNode
    rw [hnodes]
    simp only at hfind
    rw [hfind]
    simp

/-- Witness for C4: node 6 is created between the nodes 5 and 9 of the example
registry at the fresh address 23; the second call returns 23 again. -/
theorem CreateNode_idempotent_witness :
    exampleRegistry.sorted ∧
    (Registry.CreateNode intLib ⟨0, 0, 0, 0⟩ exampleRegistry 6).2 = 23 ∧
    (Registry.CreateNode intLib ⟨0, 0, 0, 0⟩ exampleRegistry 6).1.Nodes
      = [⟨2, 20⟩, ⟨5, 21⟩, ⟨6, 23⟩, ⟨9, 22⟩] ∧
    (Registry.CreateNode intLib ⟨1, 1, 1, 1⟩
        (Registry.CreateNode intLib ⟨0, 0, 0, 0⟩ exampleRegistry 6).1 6).2
      = (Registry.CreateNode intLib ⟨0, 0, 0, 0⟩ exampleRegistry 6).2 ∧
    (Registry.CreateNode intLib ⟨1, 1, 1, 1⟩
        (Registry.CreateNode intLib ⟨0, 0, 0, 0⟩ exampleRegistry 6).1 6).1
      = (Registry.CreateNode intLib ⟨0, 0, 0, 0⟩ exampleRegistry 6).1 :=
  have h := CreateNode_idempotent intLib ⟨0, 0, 0, 0⟩ ⟨1, 1, 1, 1⟩ exampleRegistry 6 (by decide)
  ⟨by decide, by decide, by decide, h.1, h.2.1⟩

/-! ## Selection -/

/-- Toggling a selected object erases it and bumps the counter. -/
theorem toggle_of_selected (s : Selection) (o : Nat) (h : o ∈ s.SelectedObjects) :
    s.ToggleObjectSelection o
      = { SelectedObjects := s.SelectedObjects.erase o,
          SelectionId := (s.SelectionId + 1) % 18446744073709551616 } := by
  simp [Selection.ToggleObjectSelection, Selection.DeselectObject, Selection.IsSelected, h,
    Selection.bump]

/-- Toggling an object that is not selected appends it and bumps the counter. -/
theorem toggle_of_not_selected (s : Selection) (o : Nat) (h : o ∉ s.SelectedObjects) :
    s.ToggleObjectSelection o
      = { SelectedObjects := s.SelectedObjects ++ [o],
          SelectionId := (s.SelectionId + 1) % 18446744073709551616 } := by
  simp [Selection.ToggleObjectSelection, Selection.SelectObject, Selection.IsSelected, h,
    Selection.bump]

/-- C6: on a selection without duplicates, toggling an object twice leaves
IsSelected of every object as it was, the selected objects the same set (a
permutation of the original list) without duplicates, and SelectionId advanced
by two steps of the 64-bit counter, one per toggle; each toggle flips the
membership of the object. -/
theorem toggle_twice (s : Selection) (o : Nat) (hnodup : s.SelectedObjects.Nodup) :
    (∀ x, ((s.ToggleObjectSelection o).ToggleObjectSelection o).IsSelected x = s.IsSelected x) ∧
    ((s.ToggleObjectSelection o).ToggleObjectSelection o).SelectedObjects.Perm s.SelectedObjects ∧
    ((s.ToggleObjectSelection o).ToggleObjectSelection o).SelectedObjects.Nodup ∧
    ((s.ToggleObjectSelection o).ToggleObjectSelection o).SelectionId
      = (s.SelectionId + 2) % 18446744073709551616 ∧
    (s.ToggleObjectSelection o).IsSelected o = !s.IsSelected o ∧
    (s.ToggleObjectSelection o).SelectionId = (s.SelectionId + 1) % 18446744073709551616 := by
  have hperm : ((s.ToggleObjectSelection o).ToggleObjectSelection o).SelectedObjects.Perm
      s.SelectedObjects ∧
      ((s.ToggleObjectSelection o).ToggleObjectSelection o).SelectionId
        = (s.SelectionId + 2) % 18446744073709551616 ∧
      (s.ToggleObjectSelection o).IsSelected o = !s.IsSelected o ∧
      (s.ToggleObjectSelection o).SelectionId = (s.SelectionId + 1) % 18446744073709551616 := by
    by_cases h : o ∈ s.SelectedObjects
    · have h1 := toggle_of_selected s o h
      have hnot : o ∉ (s.ToggleObjectSelection o).SelectedObjects := by
        rw [h1]
        exact fun hmem => ((hnodup.mem_erase_iff).mp hmem).1 rfl
      have h2 := toggle_of_not_selected _ o hnot
      rw [h2, h1]
      refine ⟨?_, ?_, ?_, rfl⟩
      · show (s.SelectedObjects.erase o ++ [o]).Perm s.SelectedObjects
        exact (List.perm_append_singleton o _).trans (List.perm_cons_erase h).symm
      · show ((s.SelectionId + 1) % 18446744073709551616 + 1) % 18446744073709551616 = _
        omega
      · rw [h1] at hnot
        simp [Selection.IsSelected, h, hnot]
    · have h1 := toggle_of_not_selected s o h
      have hmem : o ∈ (s.ToggleObjectSelection o).SelectedObjects := by
        rw [h1]; simp
      have h2 := toggle_of_selected _ o hmem
      rw [h2, h1]
      refine ⟨?_, ?_, ?_, rfl⟩
      · show ((s.SelectedObjects ++ [o]).erase o).Perm s.SelectedObjects
        rw [List.erase_append_right _ h]
        simp
      · show ((s.SelectionId + 1) % 18446744073709551616 + 1) % 18446744073709551616 = _
        omega
      · simp [Selection.IsSelected, h]
  refine ⟨?_, hperm.1, ?_, hperm.2⟩
  · intro x
    simp only [Selection.IsSelected]
    rw [decide_eq_decide]
    exact hperm.1.mem_iff
  · exact hperm.1.nodup_iff.mpr hnodup

/-- Witness for C6: toggling the selected object 7 of [4, 7, 9] twice gives
[4, 9, 7] and moves SelectionId from 41 to 43. -/
theorem toggle_twice_witness :
    ([4, 7, 9] : List Nat).Nodup ∧
    (Selection.ToggleObjectSelection (Selection.ToggleObjectSelection ⟨[4, 7, 9], 41⟩ 7) 7)
      = ⟨[4, 9, 7], 43⟩ ∧
    (∀ x, (Selection.ToggleObjectSelection
        (Selection.ToggleObjectSelection ⟨[4, 7, 9], 41⟩ 7) 7).IsSelected x
      = Selection.IsSelected ⟨[4, 7, 9], 41⟩ x) :=
  ⟨by decide, by decide, (toggle_twice ⟨[4, 7, 9], 41⟩ 7 (by decide)).1⟩

/-! ## Construction -/

/-- A lookup that finds nothing: the entry the search stops at, if any, has another ID. -/
theorem find_none_iff (table : List ObjectWrapper) (id : Int) :
    (match table[lower_bound table id]? with
      | some entry => if entry.ID = id then some entry.Object else none
      | none => none) = none ↔
    ∀ entry, table[lower_bound table id]? = some entry → entry.ID ≠ id := by
  cases hget : table[lower_bound table id]? with
  | none => simp
  | some entry =>
    by_cases hid : entry.ID = id
    · simp [hid]
    · simp [hid]

/-- CreatePin when the search does not find the ID. -/
theorem CreatePin_absent (lib : Lib F) (s : Registry F) (t : PinLinkTables) (id : Int)
    (kind : PinKind)
    (habsent : ∀ entry, t.Pins[lower_bound t.Pins id]? = some entry → entry.ID ≠ id) :
    Registry.CreatePin lib s t id kind
      = (({ s with
              mem := Function.update s.mem s.nextAddress
                (Object.pin (Pin.new lib s.this id kind)),
              nextAddress := s.nextAddress + 1 },
            { t with Pins := t.Pins.take (lower_bound t.Pins id) ++
                ⟨id, s.nextAddress⟩ :: t.Pins.drop (lower_bound t.Pins id) }),
          s.nextAddress) := by
  unfold Registry.CreatePin
  cases hget : t.Pins[lower_bound t.Pins id]? with
  | none => simp only [hget]
  | some entry =>
    simp only [hget, habsent entry hget, if_false]

/-- CreateLink when the search does not find the ID. -/
theorem CreateLink_absent (lib : Lib F) (s : Registry F) (t : PinLinkTables) (id : Int)
    (habsent : ∀ entry, t.Links[lower_bound t.Links id]? = some entry → entry.ID ≠ id) :
    Registry.CreateLink lib s t id
      = (({ s with
              mem := Function.update s.mem s.nextAddress (Object.link (Link.new lib s.this id)),
              nextAddress := s.nextAddress + 1 },
            { t with Links := t.Links.take (lower_bound t.Links id) ++
                ⟨id, s.nextAddress⟩ :: t.Links.drop (lower_bound t.Links id) }),
          s.nextAddress) := by
  unfold Registry.CreateLink
  cases hget : t.Links[lower_bound t.Links id]? with
  | none => simp only [hget]
  | some entry =>
    simp only [hget, habsent entry hget, if_false]

/-- C11: a new Node, Pin or Link has the given id and is live; a new Pin has the
given kind, no owner node and both connection flags false; a new Node has type
Node and both one-shot flags false; a new Link has null end pins.  Hence a
CreateNode, CreatePin or CreateLink call that creates (the id is not found)
returns the object just constructed, which is live. -/
theorem new_objects_are_live (lib : Lib F) (u : NodeIndeterminate F) (editor : Ptr) (id : Int)
    (kind : PinKind) (s : Registry F) (t : PinLinkTables) :
    ((Node.new lib u editor id).ID = id ∧ (Node.new lib u editor id).IsLive = true ∧
      (Node.new lib u editor id).Type_ = NodeType.Node ∧
      (Node.new lib u editor id).RestoreState = false ∧
      (Node.new lib u editor id).CenterOnScreen = false) ∧
    ((Pin.new lib editor id kind).ID = id ∧ (Pin.new lib editor id kind).IsLive = true ∧
      (Pin.new lib editor id kind).Kind = kind ∧ (Pin.new lib editor id kind).Node = none ∧
      (Pin.new lib editor id kind).HasConnection = false ∧
      (Pin.new lib editor id kind).HadConnection = false) ∧
    ((Link.new lib editor id).ID = id ∧ (Link.new lib editor id).IsLive = true ∧
      (Link.new lib editor id).StartPin = none ∧ (Link.new lib editor id).EndPin = none) ∧
    (s.FindNode id = none →
      (Registry.CreateNode lib u s id).1.mem (Registry.CreateNode lib u s id).2
        = Object.node (Node.new lib u s.this id) ∧
      ((Registry.CreateNode lib u s id).1.mem (Registry.CreateNode lib u s id).2).IsLive = true) ∧
    (t.FindPin id = none →
      (Registry.CreatePin lib s t id kind).1.1.mem (Registry.CreatePin lib s t id kind).2
        = Object.pin (Pin.new lib s.this id kind) ∧
      ((Registry.CreatePin lib s t id kind).1.1.mem
        (Registry.CreatePin lib s t id kind).2).IsLive = true) ∧
    (t.FindLink id = none →
      (Registry.CreateLink lib s t id).1.1.mem (Registry.CreateLink lib s t id).2
        = Object.link (Link.new lib s.this id) ∧
      ((Registry.CreateLink lib s t id).1.1.mem (Registry.CreateLink lib s t id).2).IsLive
        = true) := by
  refine ⟨⟨rfl, rfl, rfl, rfl, rfl⟩, ⟨rfl, rfl, rfl, rfl, rfl, rfl⟩, ⟨rfl, rfl, rfl, rfl⟩,
    ?_, ?_, ?_⟩
  · intro hnone
    rw [CreateNode_absent lib u s id ((find_none_iff s.Nodes id).mp hnone)]
    have hmem : Function.update s.mem s.nextAddress (Object.node (Node.new lib u s.this id))
        s.nextAddress = Object.node (Node.new lib u s.this id) := Function.update_same _ _ _
    exact ⟨hmem, (congrArg Object.IsLive hmem).trans rfl⟩
  · intro hnone
    rw [CreatePin_absent lib s t id kind ((find_none_iff t.Pins id).mp hnone)]
    have hmem : Function.update s.mem s.nextAddress (Object.pin (Pin.new lib s.this id kind))
        s.nextAddress = Object.pin (Pin.new lib s.this id kind) := Function.update_same _ _ _
    exact ⟨hmem, (congrArg Object.IsLive hmem).trans rfl⟩
  · intro hnone
    rw [CreateLink_absent lib s t id ((find_none_iff t.Links id).mp hnone)]
    have hmem : Function.update s.mem s.nextAddress (Object.link (Link.new lib s.this id))
        s.nextAddress = Object.link (Link.new lib s.this id) := Function.update_same _ _ _
    exact ⟨hmem, (congrArg Object.IsLive hmem).trans rfl⟩

/-- Witness for C11: the id 6 is in none of the example tables; each creating
call returns the fresh address 23, which then holds the object just constructed. -/
theorem new_objects_are_live_witness :
    exampleRegistry.FindNode 6 = none ∧ exampleTables.FindPin 6 = none ∧
    exampleTables.FindLink 6 = none ∧
    (Registry.CreateNode intLib ⟨0, 0, 0, 0⟩ exampleRegistry 6).2 = 23 ∧
    ((Registry.CreateNode intLib ⟨0, 0, 0, 0⟩ exampleRegistry 6).1.mem
      (Registry.CreateNode intLib ⟨0, 0, 0, 0⟩ exampleRegistry 6).2).IsLive = true ∧
    ((Registry.CreatePin intLib exampleRegistry exampleTables 6 PinKind.Output).1.1.mem
      (Registry.CreatePin intLib exampleRegistry exampleTables 6 PinKind.Output).2).IsLive
        = true ∧
    ((Registry.CreateLink intLib exampleRegistry exampleTables 6).1.1.mem
      (Registry.CreateLink intLib exampleRegistry exampleTables 6).2).IsLive = true :=
  have h := new_objects_are_live intLib ⟨0, 0, 0, 0⟩ none 6 PinKind.Output exampleRegistry
    exampleTables
  ⟨by decide, by decide, by decide, by decide, (h.2.2.2.1 (by decide)).2,
    (h.2.2.2.2.1 (by decide)).2, (h.2.2.2.2.2 (by decide)).2⟩

/-! ## The ordering of table entries -/

/-- C12: the ordering of table entries depends on the ID alone (a < b exactly
when a.ID < b.ID, whatever the Object pointers are) and is a strict weak order:
irreflexive, asymmetric, transitive, and a and b are incomparable exactly when
a.ID = b.ID. -/
theorem ObjectWrapper_lt_strict_weak_order (a b c : ObjectWrapper) :
    (a.lt b = true ↔ a.ID < b.ID) ∧
    (∀ (p q : Nat), ObjectWrapper.lt ⟨a.ID, p⟩ ⟨b.ID, q⟩ = a.lt b) ∧
    a.lt a = false ∧
    (a.lt b = true → b.lt a = false) ∧
    (a.lt b = true → b.lt c = true → a.lt c = true) ∧
    ((a.lt b = false ∧ b.lt a = false) ↔ a.ID = b.ID) := by
  refine ⟨?_, fun _ _ => rfl, ?_, ?_, ?_, ?_⟩ <;>
    simp only [ObjectWrapper.lt, decide_eq_true_eq, decide_eq_false_iff_not] <;> omega

/-! ## Actions and their downcasts -/

/-- C13: for each of the eight concrete actions exactly one of the eight
downcasts returns non-null: the one of its own kind (AsCutCopyPaste for
ShortcutAction), which returns the action itself; every other downcast returns
null, so no downcast answers non-null to two distinct kinds. -/
theorem downcast_own_kind_only (kind : ActionKind) (method : Downcast) (this : Nat) :
    (ActionKind.Navigate.ownDowncast = Downcast.AsNavigate ∧
      ActionKind.Size.ownDowncast = Downcast.AsSize ∧
      ActionKind.Drag.ownDowncast = Downcast.AsDrag ∧
      ActionKind.Select.ownDowncast = Downcast.AsSelect ∧
      ActionKind.ContextMenu.ownDowncast = Downcast.AsContextMenu ∧
      ActionKind.Shortcut.ownDowncast = Downcast.AsCutCopyPaste ∧
      ActionKind.CreateItem.ownDowncast = Downcast.AsCreateItem ∧
      ActionKind.DeleteItems.ownDowncast = Downcast.AsDeleteItems) ∧
    EditorAction.downcast kind.ownDowncast kind this = some this ∧
    (method ≠ kind.ownDowncast → EditorAction.downcast method kind this = none) ∧
    (EditorAction.downcast method kind this ≠ none ↔ method = kind.ownDowncast) ∧
    (∀ (other : ActionKind) (that : Nat), other ≠ kind →
      ¬ (EditorAction.downcast method kind this ≠ none ∧
          EditorAction.downcast method other that ≠ none)) := by
  refine ⟨⟨rfl, rfl, rfl, rfl, rfl, rfl, rfl, rfl⟩, ?_, ?_, ?_, ?_⟩
  · cases kind <;> rfl
  · cases kind <;> cases method <;> simp [ActionKind.ownDowncast, EditorAction.downcast,
      EditorAction.AsNavigate, EditorAction.AsSize, EditorAction.AsDrag, EditorAction.AsSelect,
      EditorAction.AsCreateItem, EditorAction.AsDeleteItems, EditorAction.AsContextMenu,
      EditorAction.AsCutCopyPaste]
  · cases kind <;> cases method <;> simp [ActionKind.ownDowncast, EditorAction.downcast,
      EditorAction.AsNavigate, EditorAction.AsSize, EditorAction.AsDrag, EditorAction.AsSelect,
      EditorAction.AsCreateItem, EditorAction.AsDeleteItems, EditorAction.AsContextMenu,
      EditorAction.AsCutCopyPaste]
  · intro other that hne
    cases kind <;> cases method <;> cases other <;> simp_all [EditorAction.downcast,
      EditorAction.AsNavigate, EditorAction.AsSize, EditorAction.AsDrag, EditorAction.AsSelect,
      EditorAction.AsCreateItem, EditorAction.AsDeleteItems, EditorAction.AsContextMenu,
      EditorAction.AsCutCopyPaste]

/-! ## Hot object -/

/-- C14: with a Pin as hot object the Control has HotPin that pin, HotLink null
and HotNode the pin's owner Node, while a Pin as active, clicked or
double-clicked object leaves ActiveNode, ClickedNode or DoubleClickedNode null;
with a Node as hot object HotNode is that node and HotPin and HotLink are
null. -/
theorem Control_new_hot_pin_gives_owner (mem : Memory F) (pinAt nodeAt : Nat) (p : Pin F)
    (n : Node F) (hpin : mem pinAt = Object.pin p) (hnode : mem nodeAt = Object.node n)
    (hot active clicked doubleClicked : Ptr) (bh ba bc bd : Bool) :
    ((Control.new mem (some pinAt) active clicked doubleClicked bh ba bc bd).HotPin = some pinAt ∧
      (Control.new mem (some pinAt) active clicked doubleClicked bh ba bc bd).HotLink = none ∧
      (Control.new mem (some pinAt) active clicked doubleClicked bh ba bc bd).HotNode = p.Node) ∧
    (Control.new mem hot (some pinAt) clicked doubleClicked bh ba bc bd).ActiveNode = none ∧
    (Control.new mem hot active (some pinAt) doubleClicked bh ba bc bd).ClickedNode = none ∧
    (Control.new mem hot active clicked (some pinAt) bh ba bc bd).DoubleClickedNode = none ∧
    ((Control.new mem (some nodeAt) active clicked doubleClicked bh ba bc bd).HotNode
        = some nodeAt ∧
      (Control.new mem (some nodeAt) active clicked doubleClicked bh ba bc bd).HotPin = none ∧
      (Control.new mem (some nodeAt) active clicked doubleClicked bh ba bc bd).HotLink = none) := by
  have hAsPin : Object.AsPin mem pinAt = some pinAt := by simp [Object.AsPin, hpin]
  have hAsNode : Object.AsNode mem pinAt = none := by simp [Object.AsNode, hpin]
  have hAsLink : Object.AsLink mem pinAt = none := by simp [Object.AsLink, hpin]
  have hOwner : Memory.pinNode mem pinAt = p.Node := by simp [Memory.pinNode, hpin]
  have nAsPin : Object.AsPin mem nodeAt = none := by simp [Object.AsPin, hnode]
  have nAsNode : Object.AsNode mem nodeAt = some nodeAt := by simp [Object.AsNode, hnode]
  have nAsLink : Object.AsLink mem nodeAt = none := by simp [Object.AsLink, hnode]
  refine ⟨⟨?_, ?_, ?_⟩, ?_, ?_, ?_, ⟨?_, ?_, ?_⟩⟩
  all_goals
    cases hot <;> cases active <;> cases clicked <;> cases doubleClicked <;>
      simp [Control.new, hAsPin, hAsNode, hAsLink, hOwner, nAsPin, nAsNode, nAsLink]

/-- Witness for C14: in the example memory the pin at address 2 is owned by the
node at address 1. -/
theorem Control_new_hot_pin_gives_owner_witness :
    exampleMemory 2 = Object.pin { examplePin 10 true false ⟨2, 2, 4, 4⟩ with Node := some 1 } ∧
    exampleMemory 1 = Object.node (exampleNode 1 true ⟨0, 0, 0, 0⟩) ∧
    (Control.new exampleMemory (some 2) (some 2) none none false false false false).HotNode
      = some 1 ∧
    (Control.new exampleMemory (some 2) (some 2) none none false false false false).HotPin
      = some 2 ∧
    (Control.new exampleMemory (some 2) (some 2) none none false false false false).ActiveNode
      = none ∧
    (Control.new exampleMemory (some 1) none none none false false false false).HotNode
      = some 1 :=
  have h := Control_new_hot_pin_gives_owner exampleMemory 2 1
    { examplePin 10 true false ⟨2, 2, 4, 4⟩ with Node := some 1 }
    (exampleNode 1 true ⟨0, 0, 0, 0⟩) rfl rfl (some 2) (some 2) none none false false false false
  ⟨rfl, rfl, h.1.2.2, h.1.1, h.2.1, h.2.2.2.2.1⟩

/-! ## Reset twice -/

/-- C15: after two consecutive Pin::Reset calls HadConnection, HasConnection and
IsLive are all false; after one Reset of a pin that was not live HadConnection is
false whatever HasConnection was. -/
theorem Pin_Reset_twice (p : Pin F) :
    (p.Reset.Reset.HadConnection = false ∧ p.Reset.Reset.HasConnection = false ∧
      p.Reset.Reset.IsLive = false) ∧
    (p.IsLive = false → p.Reset.HadConnection = false) := by
  refine ⟨⟨rfl, rfl, rfl⟩, ?_⟩
  intro hdead
  simp [Pin.Reset, hdead]

/-- Witness for C15: a pin that is not live with HasConnection set. -/
theorem Pin_Reset_twice_witness :
    (examplePin 3 false true ⟨0, 0, 4, 4⟩).IsLive = false ∧
    (examplePin 3 false true ⟨0, 0, 4, 4⟩).HasConnection = true ∧
    (examplePin 3 false true ⟨0, 0, 4, 4⟩).Reset.HadConnection = false :=
  ⟨rfl, rfl, (Pin_Reset_twice (examplePin 3 false true ⟨0, 0, 4, 4⟩)).2 rfl⟩

/-! ## Snapping toward the origin -/

/-- AlignPointToGrid without Alt on a point of 32-bit coordinates: each coordinate
loses its truncating remainder by 16. -/
theorem align_point (q : point) (hx : isInt32 q.x) (hy : isInt32 q.y) :
    EditorContext.AlignPointToGrid false q
      = ⟨q.x - Int.tmod q.x 16, q.y - Int.tmod q.y 16⟩ := by
  show point.mk (wrap32 (q.x - wrap32 (Int.tmod (wrap32 (q.x + 0)) 16 - 0)))
    (wrap32 (q.y - wrap32 (Int.tmod (wrap32 (q.y + 0)) 16 - 0))) = _
  rw [align_coordinate q.x hx, align_coordinate q.y hy]

/-- Removing the truncating remainder by 16 moves a coordinate toward zero, commutes
with negation, and leaves a multiple of 16. -/
theorem snap_toward_zero (x : Int) :
    |x - Int.tmod x 16| ≤ |x| ∧ (0 ≤ x → 0 ≤ x - Int.tmod x 16) ∧
    (x ≤ 0 → x - Int.tmod x 16 ≤ 0) ∧
    -x - Int.tmod (-x) 16 = -(x - Int.tmod x 16) ∧
    Int.tmod (x - Int.tmod x 16) 16 = 0 := by
  have hneg : Int.tmod (-x) 16 = -Int.tmod x 16 := by
    rcases tmod16_cases x with ⟨_, hr⟩ | ⟨_, hr⟩ <;>
      rcases tmod16_cases (-x) with ⟨_, hr'⟩ | ⟨_, hr'⟩ <;> rw [hr, hr'] <;> omega
  have hdvd : Int.tmod (x - Int.tmod x 16) 16 = 0 := by
    apply Int.tmod_eq_zero_of_dvd
    rcases tmod16_cases x with ⟨_, hr⟩ | ⟨_, hr⟩ <;> rw [hr] <;> omega
  refine ⟨?_, ?_, ?_, ?_, hdvd⟩
  · rw [abs_le]
    rcases tmod16_cases x with ⟨h0, hr⟩ | ⟨h0, hr⟩ <;> rw [hr]
    · rw [abs_of_nonneg h0]; omega
    · rw [abs_of_neg h0]; omega
  · intro h0
    rcases tmod16_cases x with ⟨_, hr⟩ | ⟨_, hr⟩ <;> rw [hr] <;> omega
  · intro h0
    rcases tmod16_cases x with ⟨_, hr⟩ | ⟨_, hr⟩ <;> rw [hr] <;> omega
  · rw [hneg]; omega

/-- C16: without Alt every result coordinate r of AlignPointToGrid for an input
coordinate x has |r| <= |x| and the sign of x or is 0; hence AlignPointToGrid(-p)
= -AlignPointToGrid(p) when no coordinate of p is the minimum int, and applying
AlignPointToGrid twice gives the same as applying it once. -/
theorem AlignPointToGrid_toward_origin (p : point) (hx : isInt32 p.x) (hy : isInt32 p.y) :
    (|(EditorContext.AlignPointToGrid false p).x| ≤ |p.x| ∧
      (0 ≤ p.x → 0 ≤ (EditorContext.AlignPointToGrid false p).x) ∧
      (p.x ≤ 0 → (EditorContext.AlignPointToGrid false p).x ≤ 0)) ∧
    (|(EditorContext.AlignPointToGrid false p).y| ≤ |p.y| ∧
      (0 ≤ p.y → 0 ≤ (EditorContext.AlignPointToGrid false p).y) ∧
      (p.y ≤ 0 → (EditorContext.AlignPointToGrid false p).y ≤ 0)) ∧
    (p.x ≠ -2147483648 → p.y ≠ -2147483648 →
      EditorContext.AlignPointToGrid false p.neg = (EditorContext.AlignPointToGrid false p).neg) ∧
    EditorContext.AlignPointToGrid false (EditorContext.AlignPointToGrid false p)
      = EditorContext.AlignPointToGrid false p := by
  obtain ⟨hax, hpx, hnx, hnegx, hdx⟩ := snap_toward_zero p.x
  obtain ⟨hay, hpy, hny, hnegy, hdy⟩ := snap_toward_zero p.y
  have hrange : ∀ x r : Int, isInt32 x → |r| ≤ |x| → (0 ≤ x → 0 ≤ r) → (x ≤ 0 → r ≤ 0) →
      isInt32 r := by
    intro x r hxr habs hpos hneg
    unfold isInt32 at *
    rw [abs_le] at habs
    rcases abs_cases x with ⟨h, _⟩ | ⟨h, _⟩ <;> rw [h] at habs <;> omega
  rw [align_point p hx hy]
  refine ⟨⟨hax, hpx, hnx⟩, ⟨hay, hpy, hny⟩, ?_, ?_⟩
  · intro hminx hminy
    unfold isInt32 at hx hy
    have ex : wrap32 (-p.x) = -p.x := by unfold wrap32; omega
    have ey : wrap32 (-p.y) = -p.y := by unfold wrap32; omega
    rw [abs_le] at hax hay
    have hqx : isInt32 (-p.x) := by unfold isInt32; omega
    have hqy : isInt32 (-p.y) := by unfold isInt32; omega
    have hq : p.neg = ⟨-p.x, -p.y⟩ := by
      show point.mk (wrap32 (-p.x)) (wrap32 (-p.y)) = _
      rw [ex, ey]
    rw [hq, align_point ⟨-p.x, -p.y⟩ hqx hqy]
    show point.mk (-p.x - Int.tmod (-p.x) 16) (-p.y - Int.tmod (-p.y) 16)
      = point.mk (wrap32 (-(p.x - Int.tmod p.x 16))) (wrap32 (-(p.y - Int.tmod p.y 16)))
    have wx : wrap32 (-(p.x - Int.tmod p.x 16)) = -(p.x - Int.tmod p.x 16) := by
      rcases abs_cases p.x with ⟨h, _⟩ | ⟨h, _⟩ <;> rw [h] at hax <;> unfold wrap32 <;> omega
    have wy : wrap32 (-(p.y - Int.tmod p.y 16)) = -(p.y - Int.tmod p.y 16) := by
      rcases abs_cases p.y with ⟨h, _⟩ | ⟨h, _⟩ <;> rw [h] at hay <;> unfold wrap32 <;> omega
    rw [wx, wy, hnegx, hnegy]
  · rw [align_point _ (hrange p.x _ hx hax hpx hnx) (hrange p.y _ hy hay hpy hny)]
    show point.mk (p.x - Int.tmod p.x 16 - Int.tmod (p.x - Int.tmod p.x 16) 16)
      (p.y - Int.tmod p.y 16 - Int.tmod (p.y - Int.tmod p.y 16) 16) = _
    rw [hdx, hdy]
    simp

/-- Witness for C16: (-1, -17) snaps to (0, -16), the negated point (1, 17) to
(0, 16). -/
theorem AlignPointToGrid_toward_origin_witness :
    isInt32 (-1) ∧ isInt32 (-17) ∧ (-1 : Int) ≠ -2147483648 ∧ (-17 : Int) ≠ -2147483648 ∧
    EditorContext.AlignPointToGrid false ⟨-1, -17⟩ = ⟨0, -16⟩ ∧
    EditorContext.AlignPointToGrid false (point.neg ⟨-1, -17⟩) = ⟨0, 16⟩ ∧
    EditorContext.AlignPointToGrid false (point.neg ⟨-1, -17⟩)
      = (EditorContext.AlignPointToGrid false ⟨-1, -17⟩).neg ∧
    EditorContext.AlignPointToGrid false (EditorContext.AlignPointToGrid false ⟨-1, -17⟩)
      = EditorContext.AlignPointToGrid false ⟨-1, -17⟩ :=
  have h := AlignPointToGrid_toward_origin ⟨-1, -17⟩ (by decide) (by decide)
  ⟨by decide, by decide, by decide, by decide, by decide, by decide,
    h.2.2.1 (by decide) (by decide), h.2.2.2⟩

/-! ## Capabilities -/

/-- C17: a Node and a Link report IsSelectable true, a Pin false; a Pin and a
Link report AcceptDrag false, EndDrag false and IsDraggable false, each leaving
the object as it was, and their UpdateDrag leaves the object unchanged for every
offset. -/
theorem capabilities_by_kind (nodeDrag : NodeDrag F) (n : Node F) (p : Pin F) (l : Link F)
    (offset : point) :
    ((Object.node n).IsSelectable = true ∧ (Object.link l).IsSelectable = true ∧
      (Object.pin p).IsSelectable = false) ∧
    ((Object.pin p).AcceptDrag nodeDrag = (false, Object.pin p) ∧
      (Object.pin p).EndDrag nodeDrag = (false, Object.pin p) ∧
      (Object.pin p).IsDraggable nodeDrag = (false, Object.pin p) ∧
      (Object.pin p).UpdateDrag nodeDrag offset = Object.pin p) ∧
    ((Object.link l).AcceptDrag nodeDrag = (false, Object.link l) ∧
      (Object.link l).EndDrag nodeDrag = (false, Object.link l) ∧
      (Object.link l).IsDraggable nodeDrag = (false, Object.link l) ∧
      (Object.link l).UpdateDrag nodeDrag offset = Object.link l) :=
  ⟨⟨rfl, rfl, rfl⟩, ⟨rfl, rfl, rfl, rfl⟩, ⟨rfl, rfl, rfl, rfl⟩⟩

/-! ## Point hit test -/

/-- C18: for a Node or Pin and an extra thickness that is not above zero (the
test extraThickness > 0 fails, as it does for zero), the point hit test equals
the one with extra thickness 0, which for a live object is bounds.contains(point);
the bounds are expanded by the extra thickness only when it is above zero. -/
theorem TestHit_never_shrinks (lib : Lib F) (o : Object F) (point : ImVec2 F)
    (extraThickness : F) (hkind : o.kind ≠ ObjectKind.Link)
    (hzero : lib.gt_zero (lib.of_int 0) = false)
    (hnotpos : lib.gt_zero extraThickness = false) :
    o.TestHit lib point extraThickness = o.TestHit lib point (lib.of_int 0) ∧
    (o.IsLive = true →
      o.TestHit lib point (lib.of_int 0)
        = lib.contains_point (o.GetBounds lib) (lib.to_pointf point)) ∧
    (o.IsLive = true → ∀ (wider : F), lib.gt_zero wider = true →
      o.TestHit lib point wider
        = lib.contains_point (lib.expand (o.GetBounds lib) wider) (lib.to_pointf point)) := by
  have hbase : ∀ e, o.TestHit lib point e = o.baseTestHit lib point e := by
    intro e
    cases o with
    | link l => exact absurd rfl hkind
    | node n => rfl
    | pin p => rfl
  refine ⟨?_, ?_, ?_⟩
  · rw [hbase, hbase]
    simp [Object.baseTestHit, hzero, hnotpos]
  · intro hlive
    rw [hbase]
    simp [Object.baseTestHit, hzero, hlive]
  · intro hlive wider hpos
    rw [hbase]
    simp [Object.baseTestHit, hpos, hlive]

/-- Witness for C18: a live pin with bounds (0, 0, 10, 10) and the point (11, 5)
just outside: not hit with extra thickness -3 or 0, hit with extra thickness 2. -/
theorem TestHit_never_shrinks_witness :
    (Object.pin (examplePin 7 true false ⟨0, 0, 10, 10⟩)).kind ≠ ObjectKind.Link ∧
    intLib.gt_zero (intLib.of_int 0) = false ∧ intLib.gt_zero (-3) = false ∧
    (Object.pin (examplePin 7 true false ⟨0, 0, 10, 10⟩)).TestHit intLib ⟨11, 5⟩ 0 = false ∧
    (Object.pin (examplePin 7 true false ⟨0, 0, 10, 10⟩)).TestHit intLib ⟨11, 5⟩ 2 = true ∧
    (Object.pin (examplePin 7 true false ⟨0, 0, 10, 10⟩)).TestHit intLib ⟨11, 5⟩ (-3)
      = (Object.pin (examplePin 7 true false ⟨0, 0, 10, 10⟩)).TestHit intLib ⟨11, 5⟩
          (intLib.of_int 0) :=
  ⟨by decide, by decide, by decide, by decide, by decide,
    (TestHit_never_shrinks intLib (Object.pin (examplePin 7 true false ⟨0, 0, 10, 10⟩))
      ⟨11, 5⟩ (-3) (by decide) (by decide) (by decide)).1⟩

end NodeEditor
